import Mathlib

/-!
Session layer of the signalsPOC frontend.

A shallow embedding of `frontend/src/api/index.js` (the axios instance `api`,
its request and response interceptors, `authApi.login`) and of
`frontend/src/stores/auth.js` (the Pinia store `useAuthStore`: `state`,
`isAuthenticated`, `login`, `logout`), followed by theorems about them.

Conventions of the embedding.

* JavaScript values are the type `JSVal`. Numbers are binary64 values, each
  finite one held by its exact rational value; strings are sequences of
  Unicode scalar values.
* A thrown exception is the `error` side of `Except JSVal _`; a settled promise
  is an `Outcome`.
* The browser is explicit state: `Browser` holds the content of `localStorage`
  and a log of the calls that change the outside world (`localStorage.setItem`,
  `localStorage.removeItem`, an assignment to `window.location.href`).
  Storage is unbounded: `setItem` never throws a quota error.
* The network behind axios is a parameter, `Transport`: what the adapter answers
  to the request that left the request interceptor.
-/

/-! ## JavaScript numbers -/

/-- A JavaScript number, an IEEE 754 binary64 value: a finite value other
than `-0` by its exact value, `-0`, the two infinities and `NaN`. -/
inductive JSNumber where
  | finite (q : ℚ)
  | negZero
  | posInf
  | negInf
  | nan
deriving DecidableEq

namespace JSNumber

/-- A numeric literal of the program text. -/
instance instOfNat (n : Nat) : OfNat JSNumber n := ⟨finite n⟩

/-- The integer nearest to `n / d`, the even one on a tie. -/
def roundDiv (n d : Nat) : Nat :=
  if 2 * (n % d) < d then n / d
  else if d < 2 * (n % d) then n / d + 1
  else if n / d % 2 = 0 then n / d
  else n / d + 1

/-- The number of binary digits of `n`, by halving at most `fuel` times. -/
def bitLength : Nat → Nat → Nat
  | 0, _ => 0
  | fuel + 1, n => if n = 0 then 0 else bitLength fuel (n / 2) + 1

/-- The integer `k` with `2 ^ k ≤ n < 2 ^ (k + 1)`, for positive `n`. -/
def log2 (n : Nat) : Nat :=
  bitLength n n - 1

/-- The integer `k` with `2 ^ k ≤ n / d < 2 ^ (k + 1)`, for positive `n` and
`d`. -/
def log2Ratio (n d : Nat) : Int :=
  if log2 d ≤ log2 n then
    if d * 2 ^ (log2 n - log2 d) ≤ n then ((log2 n - log2 d : Nat) : Int)
    else ((log2 n - log2 d : Nat) : Int) - 1
  else
    if d ≤ n * 2 ^ (log2 d - log2 n) then - ((log2 d - log2 n : Nat) : Int)
    else - ((log2 d - log2 n : Nat) : Int) - 1

/-- The exponent of the binary64 value nearest to `n / d`: the value is a
multiple of `2 ^ e` with a mantissa of at most 53 bits, and `e` is at least
the exponent of the subnormal values. -/
def exponentOf (n d : Nat) : Int :=
  max (log2Ratio n d - 52) (-1074)

/-- The mantissa of the binary64 value nearest to `n / d`, for the exponent
`e`: `n / (d * 2 ^ e)` rounded to the nearest integer, ties to even. -/
def mantissaOf (n d : Nat) (e : Int) : Nat :=
  if 0 ≤ e then roundDiv n (d * 2 ^ e.toNat) else roundDiv (n * 2 ^ (-e).toNat) d

/-- The binary64 value nearest to `± n / d` (round to nearest, ties to even):
`±0` when the value rounds to zero, an infinity when it rounds to `2 ^ 1024`
or beyond, that is beyond the largest finite value. -/
def ofRatio (neg : Bool) (n d : Nat) : JSNumber :=
  if n = 0 ∨ mantissaOf n d (exponentOf n d) = 0 then
    if neg then negZero else finite 0
  else if 971 < exponentOf n d ∨
      (exponentOf n d = 971 ∧ 2 ^ 53 ≤ mantissaOf n d (exponentOf n d)) then
    if neg then negInf else posInf
  else
    finite (mkRat
      ((if neg then -1 else 1) *
        ((mantissaOf n d (exponentOf n d) * 2 ^ (exponentOf n d).toNat : Nat) : Int))
      (2 ^ (-(exponentOf n d)).toNat))

/-- The binary64 value of the decimal numeral `± digits × 10 ^ exp`. -/
def ofDecimal (neg : Bool) (digits : Nat) (exp : Int) : JSNumber :=
  if 0 ≤ exp then ofRatio neg (digits * 10 ^ exp.toNat) 1
  else ofRatio neg digits (10 ^ (-exp).toNat)

/-- The integer `n` with `10 ^ (n - 1) ≤ a / b < 10 ^ n`, for positive `a`
and `b`. -/
def magnitude (a b : Nat) : Int :=
  if (Nat.toDigits 10 b).length ≤ (Nat.toDigits 10 a).length then
    if a < b * 10 ^ ((Nat.toDigits 10 a).length - (Nat.toDigits 10 b).length) then
      (((Nat.toDigits 10 a).length - (Nat.toDigits 10 b).length : Nat) : Int)
    else (((Nat.toDigits 10 a).length - (Nat.toDigits 10 b).length : Nat) : Int) + 1
  else
    if a * 10 ^ ((Nat.toDigits 10 b).length - (Nat.toDigits 10 a).length) < b then
      - (((Nat.toDigits 10 b).length - (Nat.toDigits 10 a).length : Nat) : Int)
    else - (((Nat.toDigits 10 b).length - (Nat.toDigits 10 a).length : Nat) : Int) + 1

/-- The integer nearest to `a / (b * 10 ^ p)`, ties to even. -/
def scaledNearest (a b : Nat) (p : Int) : Nat :=
  if 0 ≤ p then roundDiv a (b * 10 ^ p.toNat) else roundDiv (a * 10 ^ (-p).toNat) b

/-- The integer part of `a / (b * 10 ^ p)`. -/
def scaledFloor (a b : Nat) (p : Int) : Nat :=
  if 0 ≤ p then a / (b * 10 ^ p.toNat) else a * 10 ^ (-p).toNat / b

/-- The shortest decimal `s × 10 ^ p` that rounds to the value `a / b`, whose
magnitude is `n`: the numerals of `k` digits are tried for `k = 1, 2, ...`,
the one nearest to the value first. -/
def shortestDecimal (a b : Nat) (n : Int) : Nat → Nat → Nat × Int
  | 0, k => (scaledNearest a b (n - k), n - k)
  | fuel + 1, k =>
    if ofDecimal false (scaledNearest a b (n - k)) (n - k) = finite (mkRat a b) then
      (scaledNearest a b (n - k), n - k)
    else if ofDecimal false (scaledFloor a b (n - k)) (n - k) = finite (mkRat a b) then
      (scaledFloor a b (n - k), n - k)
    else if ofDecimal false (scaledFloor a b (n - k) + 1) (n - k) = finite (mkRat a b) then
      (scaledFloor a b (n - k) + 1, n - k)
    else shortestDecimal a b n fuel (k + 1)

/-- The digits without the zeros at the end. -/
def stripZeros (digits : List Char) : List Char :=
  (digits.reverse.dropWhile (fun c => c = '0')).reverse

/-- The text of a positive number from the digits of its shortest decimal and
its magnitude `n`, as Number::toString lays it out: plain digits up to 21
places, a leading `0.` down to six zeros, the exponent form otherwise. -/
def layout (digits : List Char) (n : Int) : List Char :=
  if (digits.length : Int) ≤ n ∧ n ≤ 21 then
    digits ++ List.replicate (n.toNat - digits.length) '0'
  else if 0 < n ∧ n ≤ 21 then
    digits.take n.toNat ++ '.' :: digits.drop n.toNat
  else if -6 < n ∧ n ≤ 0 then
    '0' :: '.' :: (List.replicate (-n).toNat '0' ++ digits)
  else
    (if digits.length = 1 then digits else digits.take 1 ++ '.' :: digits.drop 1) ++
      'e' :: (if 0 ≤ n - 1 then '+' else '-') :: Nat.toDigits 10 (n - 1).natAbs

/-- The text of the positive value `a / b`. -/
def positiveToStr (a b : Nat) : List Char :=
  layout (stripZeros (Nat.toDigits 10 (shortestDecimal a b (magnitude a b) 17 1).1))
    ((shortestDecimal a b (magnitude a b) 17 1).2 +
      (Nat.toDigits 10 (shortestDecimal a b (magnitude a b) 17 1).1).length)

/-- Number::toString in base 10. -/
def toStr : JSNumber → String
  | nan => "NaN"
  | negZero => "0"
  | posInf => "Infinity"
  | negInf => "-Infinity"
  | finite q =>
    if q.num = 0 then "0"
    else if q.num < 0 then String.mk ('-' :: positiveToStr q.num.natAbs q.den)
    else String.mk (positiveToStr q.num.natAbs q.den)

/-- Strict equality of numbers: `NaN` equals nothing, `0` equals `-0`. -/
def strictEq : JSNumber → JSNumber → Bool
  | nan, _ => false
  | _, nan => false
  | negZero, finite q => q = 0
  | finite q, negZero => q = 0
  | a, b => a = b

/-- ToBoolean of a number: `0`, `-0` and `NaN` are falsy. -/
def truthy : JSNumber → Bool
  | nan => false
  | negZero => false
  | finite q => q ≠ 0
  | _ => true

end JSNumber

/-! ## JavaScript values -/

/-- A JavaScript value: the primitives, arrays and plain objects (own data
properties in insertion order). -/
inductive JSVal where
  | undefined
  | null
  | bool (b : Bool)
  | num (n : JSNumber)
  | str (s : String)
  | arr (items : List JSVal)
  | obj (props : List (String × JSVal))

namespace JSVal

/-- ToBoolean: `undefined`, `null`, `false`, `0`, `-0`, `NaN` and `""` are
falsy, every other value is truthy. -/
def truthy : JSVal → Bool
  | undefined => false
  | null => false
  | bool b => b
  | num n => n.truthy
  | str s => s != ""
  | arr _ => true
  | obj _ => true

/-- Whether the value is `null` or `undefined`. -/
def isNullish : JSVal → Bool
  | undefined => true
  | null => true
  | _ => false

/-- The value of the own property `key` in a property list, `undefined` when
there is none. -/
def lookup (key : String) : List (String × JSVal) → JSVal
  | [] => undefined
  | (k, v) :: rest => if k = key then v else lookup key rest

/-- The `TypeError` object thrown when a property of `null` or `undefined` is
read. It has no `response` property. The wording of its message is the
engine's and the program never reads it. -/
def typeError (message : String) : JSVal :=
  obj [("name", str "TypeError"), ("message", str message)]

/-- Property read `v.key`: throws a `TypeError` when `v` is `null` or
`undefined`; reads the own property of an object. The keys the program reads
(`response`, `status`, `data`, `message`, `accessToken`, `username`) are not
defined on primitives or arrays, so there the read gives `undefined`. -/
def get (v : JSVal) (key : String) : Except JSVal JSVal :=
  match v with
  | undefined => .error (typeError ("Cannot read properties of undefined (reading " ++ key ++ ")"))
  | null => .error (typeError ("Cannot read properties of null (reading " ++ key ++ ")"))
  | obj props => .ok (lookup key props)
  | _ => .ok undefined

/-- Optional chaining `v?.key`: `undefined` when `v` is `null` or `undefined`,
the property read otherwise. -/
def getOpt (v : JSVal) (key : String) : JSVal :=
  match v with
  | obj props => lookup key props
  | _ => undefined

/-- Logical or, `a || b`: `a` when it is truthy, `b` otherwise. -/
def or (a b : JSVal) : JSVal :=
  if a.truthy then a else b

/-- Strict equality with a number literal, `v === n`. -/
def strictEqNum (v : JSVal) (n : JSNumber) : Bool :=
  match v with
  | num m => m.strictEq n
  | _ => false

mutual
/-- ToString, as applied by `localStorage.setItem` to its value argument. -/
def toStr : JSVal → String
  | undefined => "undefined"
  | null => "null"
  | bool true => "true"
  | bool false => "false"
  | num n => n.toStr
  | str s => s
  | arr items => String.intercalate "," (itemStrs items)
  | obj _ => "[object Object]"
/-- The pieces `Array.prototype.join` puts between the commas. -/
def itemStrs : List JSVal → List String
  | [] => []
  | undefined :: rest => "" :: itemStrs rest
  | null :: rest => "" :: itemStrs rest
  | x :: rest => toStr x :: itemStrs rest
end

/-- Sets the own property `key` of a property list: the value is replaced in
place when the key exists, the pair is appended otherwise. -/
def setProp (key : String) (v : JSVal) : List (String × JSVal) → List (String × JSVal)
  | [] => [(key, v)]
  | (k, w) :: rest => if k = key then (k, v) :: rest else (k, w) :: setProp key v rest

end JSVal

/-- How a promise settles. -/
inductive Outcome where
  | fulfilled (value : JSVal)
  | rejected (reason : JSVal)

/-! ## JSON

`JSON.stringify` and `JSON.parse` over `JSVal`, on lists of characters. -/

namespace JSON

/-- The lowercase hexadecimal digit of `n < 16`. -/
def hexDigit (n : Nat) : Char :=
  if n < 10 then Char.ofNat (48 + n) else Char.ofNat (87 + n)

/-- QuoteJSONString on one character: the two-character escapes, `\u00XX` for
the other control characters, the character itself otherwise. -/
def escapeChar (c : Char) : List Char :=
  if c = '\"' then ['\\', '\"']
  else if c = '\\' then ['\\', '\\']
  else if c = '\x08' then ['\\', 'b']
  else if c = '\x0c' then ['\\', 'f']
  else if c = '\n' then ['\\', 'n']
  else if c = '\r' then ['\\', 'r']
  else if c = '\t' then ['\\', 't']
  else if c.toNat < 32 then ['\\', 'u', '0', '0', hexDigit (c.toNat / 16), hexDigit (c.toNat % 16)]
  else [c]

/-- The escaped characters of a string, without the surrounding quotes. -/
def escapeChars : List Char → List Char
  | [] => []
  | c :: rest => escapeChar c ++ escapeChars rest

/-- QuoteJSONString: the escaped characters between double quotes. -/
def quote (s : List Char) : List Char :=
  '\"' :: (escapeChars s ++ ['\"'])

/-- The pieces separated by commas. -/
def joinComma : List (List Char) → List Char
  | [] => []
  | [x] => x
  | x :: y :: rest => x ++ ',' :: joinComma (y :: rest)

/-- A number as `JSON.stringify` writes it: a finite number by its text,
`NaN` and the infinities as `null`. -/
def numberText : JSNumber → List Char
  | .nan => ['n', 'u', 'l', 'l']
  | .posInf => ['n', 'u', 'l', 'l']
  | .negInf => ['n', 'u', 'l', 'l']
  | n => n.toStr.data

mutual
/-- SerializeJSONProperty: none stands for `undefined` (nothing to write). -/
def stringifyVal : JSVal → Option (List Char)
  | .undefined => none
  | .null => some ['n', 'u', 'l', 'l']
  | .bool true => some ['t', 'r', 'u', 'e']
  | .bool false => some ['f', 'a', 'l', 's', 'e']
  | .num n => some (numberText n)
  | .str s => some (quote s.data)
  | .arr items => some ('[' :: (joinComma (stringifyItems items) ++ [']']))
  | .obj props => some ('\x7b' :: (joinComma (stringifyProps props) ++ ['\x7d']))
/-- The elements of an array: an `undefined` element is written `null`. -/
def stringifyItems : List JSVal → List (List Char)
  | [] => []
  | x :: rest =>
    (match stringifyVal x with
      | some s => s
      | none => ['n', 'u', 'l', 'l']) :: stringifyItems rest
/-- The members of an object: a property whose value is `undefined` is
skipped. -/
def stringifyProps : List (String × JSVal) → List (List Char)
  | [] => []
  | (k, v) :: rest =>
    match stringifyVal v with
    | some s => (quote k.data ++ ':' :: s) :: stringifyProps rest
    | none => stringifyProps rest
end

/-- The call `JSON.stringify(v)`: a string, or `undefined` for `undefined`. -/
def stringify (v : JSVal) : JSVal :=
  match stringifyVal v with
  | some s => .str (String.mk s)
  | none => .undefined

/-- JSON whitespace. -/
def isWs (c : Char) : Bool :=
  c = ' ' || c = '\t' || c = '\n' || c = '\r'

/-- Drops leading whitespace. -/
def skipWs : List Char → List Char
  | [] => []
  | c :: rest => if isWs c then skipWs rest else c :: rest

/-- The value of a hexadecimal digit, either case. -/
def hexVal (c : Char) : Option Nat :=
  if 48 ≤ c.toNat ∧ c.toNat ≤ 57 then some (c.toNat - 48)
  else if 97 ≤ c.toNat ∧ c.toNat ≤ 102 then some (c.toNat - 87)
  else if 65 ≤ c.toNat ∧ c.toNat ≤ 70 then some (c.toNat - 55)
  else none

/-- The code unit written by four hexadecimal digits. -/
def hex4 (a b c d : Char) : Option Nat :=
  match hexVal a, hexVal b, hexVal c, hexVal d with
  | some x, some y, some z, some w => some (((x * 16 + y) * 16 + z) * 16 + w)
  | _, _, _, _ => none

/-- The character of a two-character escape `\e`, other than `\u`. -/
def unescape (e : Char) : Option Char :=
  if e = '\"' then some '\"'
  else if e = '\\' then some '\\'
  else if e = '/' then some '/'
  else if e = 'b' then some '\x08'
  else if e = 'f' then some '\x0c'
  else if e = 'n' then some '\n'
  else if e = 'r' then some '\r'
  else if e = 't' then some '\t'
  else none

/-- Puts a code unit in front of a parsed string. -/
def consUnit (n : Nat) : Option (List Nat × List Char) → Option (List Nat × List Char)
  | some (s, rest) => some (n :: s, rest)
  | none => none

/-- The content of a JSON string after its opening quote, up to the closing
quote, and what follows it. A character written as itself gives its code
point, an escape gives its character code, `\uXXXX` the code unit XXXX. -/
def parseUnits : List Char → Option (List Nat × List Char)
  | [] => none
  | c :: rest =>
    if c = '\"' then some ([], rest)
    else if c = '\\' then
      match rest with
      | [] => none
      | e :: rest1 =>
        if e = 'u' then
          match rest1 with
          | h1 :: h2 :: h3 :: h4 :: rest2 =>
            match hex4 h1 h2 h3 h4 with
            | some n => consUnit n (parseUnits rest2)
            | none => none
          | _ => none
        else
          match unescape e with
          | some ch => consUnit ch.toNat (parseUnits rest1)
          | none => none
    else if c.toNat < 32 then none
    else consUnit c.toNat (parseUnits rest)

/-- The character of one code unit or code point: a lone surrogate, which no
string of the model holds, is read as U+FFFD. -/
def unitChar (n : Nat) : Char :=
  if 0xD800 ≤ n ∧ n < 0xE000 then Char.ofNat 0xFFFD else Char.ofNat n

/-- The characters of a sequence of code units: a high surrogate followed by a
low surrogate is one character. -/
def decodeUnits : List Nat → List Char
  | [] => []
  | [n] => [unitChar n]
  | hi :: lo :: rest =>
    if 0xD800 ≤ hi ∧ hi < 0xDC00 ∧ 0xDC00 ≤ lo ∧ lo < 0xE000 then
      Char.ofNat (0x10000 + (hi - 0xD800) * 0x400 + (lo - 0xDC00)) :: decodeUnits rest
    else unitChar hi :: decodeUnits (lo :: rest)

/-- The characters of a JSON string after its opening quote, and what follows
its closing quote. -/
def parseChars (cs : List Char) : Option (List Char × List Char) :=
  match parseUnits cs with
  | some (units, rest) => some (decodeUnits units, rest)
  | none => none

/-- Drops the literal `lit` from the front of the input. -/
def dropLit : List Char → List Char → Option (List Char)
  | [], cs => some cs
  | _ :: _, [] => none
  | l :: lit, c :: cs => if l = c then dropLit lit cs else none

/-- The leading decimal digits and what follows them. -/
def takeDigits : List Char → List Char × List Char
  | [] => ([], [])
  | c :: rest =>
    if c.isDigit then ((takeDigits rest).1.cons c, (takeDigits rest).2)
    else ([], c :: rest)

/-- The number written by decimal digits. -/
def digitsVal (ds : List Char) : Nat :=
  ds.foldl (fun acc c => acc * 10 + (c.toNat - 48)) 0

/-- An optional fraction part: a decimal point and at least one digit. Gives
the digits and what follows them. -/
def parseFrac : List Char → Option (List Char × List Char)
  | [] => some ([], [])
  | c :: rest =>
    if c = '.' then
      if (takeDigits rest).1 = [] then none else some (takeDigits rest)
    else some ([], c :: rest)

/-- The digits of an exponent, after its sign. -/
def parseExpDigits (neg : Bool) (cs : List Char) : Option (Int × List Char) :=
  if (takeDigits cs).1 = [] then none
  else some (if neg then - (digitsVal (takeDigits cs).1 : Int) else digitsVal (takeDigits cs).1,
    (takeDigits cs).2)

/-- An optional exponent part: `e` or `E`, an optional sign and at least one
digit. Gives the exponent and what follows it. -/
def parseExp : List Char → Option (Int × List Char)
  | [] => some (0, [])
  | c :: rest =>
    if c = 'e' ∨ c = 'E' then
      match rest with
      | [] => none
      | s :: rest1 =>
        if s = '-' then parseExpDigits true rest1
        else if s = '+' then parseExpDigits false rest1
        else parseExpDigits false (s :: rest1)
    else some (0, c :: rest)

/-- The numeral after its optional minus sign: digits without a leading zero,
an optional fraction and an optional exponent. Its value is the binary64
value nearest to the decimal it writes. -/
def parseUnsigned (neg : Bool) (cs : List Char) : Option (JSVal × List Char) :=
  match takeDigits cs with
  | ([], _) => none
  | (d :: ds, rest) =>
    if d = '0' ∧ ds ≠ [] then none
    else
      match parseFrac rest with
      | none => none
      | some (fs, rest1) =>
        match parseExp rest1 with
        | none => none
        | some (ex, rest2) =>
          some (.num (JSNumber.ofDecimal neg (digitsVal (d :: ds ++ fs)) (ex - fs.length)), rest2)

/-- A JSON number: an optional minus sign and the numeral. -/
def parseNumber : List Char → Option (JSVal × List Char)
  | [] => none
  | c :: rest => if c = '-' then parseUnsigned true rest else parseUnsigned false (c :: rest)

mutual
/-- A JSON value, after optional whitespace, and what follows it. The fuel
bounds the number of nested calls; every call is made after a character has
been consumed. -/
def parseValue : Nat → List Char → Option (JSVal × List Char)
  | 0, _ => none
  | fuel + 1, cs =>
    match skipWs cs with
    | [] => none
    | c :: rest =>
      if c = '\x7b' then
        match skipWs rest with
        | [] => none
        | d :: rest1 =>
          if d = '\x7d' then some (.obj [], rest1) else parseMembers fuel (d :: rest1) []
      else if c = '[' then
        match skipWs rest with
        | [] => none
        | d :: rest1 =>
          if d = ']' then some (.arr [], rest1) else parseElements fuel (d :: rest1) []
      else if c = '\"' then
        match parseChars rest with
        | some (s, rest1) => some (.str (String.mk s), rest1)
        | none => none
      else if c = 't' then
        match dropLit ['r', 'u', 'e'] rest with
        | some rest1 => some (.bool true, rest1)
        | none => none
      else if c = 'f' then
        match dropLit ['a', 'l', 's', 'e'] rest with
        | some rest1 => some (.bool false, rest1)
        | none => none
      else if c = 'n' then
        match dropLit ['u', 'l', 'l'] rest with
        | some rest1 => some (.null, rest1)
        | none => none
      else parseNumber (c :: rest)
/-- The members of an object from its first key on, up to the closing brace.
A repeated key keeps its place and takes the later value. -/
def parseMembers : Nat → List Char → List (String × JSVal) → Option (JSVal × List Char)
  | 0, _, _ => none
  | fuel + 1, cs, acc =>
    match skipWs cs with
    | [] => none
    | c :: rest =>
      if c = '\"' then
        match parseChars rest with
        | none => none
        | some (k, rest1) =>
          match skipWs rest1 with
          | [] => none
          | d :: rest2 =>
            if d = ':' then
              match parseValue fuel rest2 with
              | none => none
              | some (v, rest3) =>
                match skipWs rest3 with
                | [] => none
                | e :: rest4 =>
                  if e = ',' then parseMembers fuel rest4 (JSVal.setProp (String.mk k) v acc)
                  else if e = '\x7d' then some (.obj (JSVal.setProp (String.mk k) v acc), rest4)
                  else none
            else none
      else none
/-- The elements of an array from its first element on, up to the closing
bracket. -/
def parseElements : Nat → List Char → List JSVal → Option (JSVal × List Char)
  | 0, _, _ => none
  | fuel + 1, cs, acc =>
    match parseValue fuel cs with
    | none => none
    | some (v, rest) =>
      match skipWs rest with
      | [] => none
      | e :: rest1 =>
        if e = ',' then parseElements fuel rest1 (acc ++ [v])
        else if e = ']' then some (.arr (acc ++ [v]), rest1)
        else none
end

/-- The `SyntaxError` object thrown by `JSON.parse`. The wording of its message
is the engine's and the program never reads it. -/
def syntaxError : JSVal :=
  .obj [("name", .str "SyntaxError"), ("message", .str "Unexpected token in JSON")]

/-- The call `JSON.parse(text)`: the value of a JSON text, or a thrown
`SyntaxError`. -/
def parse (text : String) : Except JSVal JSVal :=
  match parseValue (text.data.length + 1) text.data with
  | some (v, rest) => if skipWs rest = [] then .ok v else .error syntaxError
  | none => .error syntaxError

end JSON

/-! ## The JSON grammar

The grammar of ECMA-404 (RFC 8259), as predicates on lists of characters:
`element` is `ws value ws`, the elements of an array and the members of an
object are separated by commas, a member is `ws string ws : element`. -/

namespace JSON

/-- The rule `ws`: whitespace characters only. -/
def IsWs (w : List Char) : Prop :=
  ∀ c ∈ w, isWs c = true

/-- A hexadecimal digit, either case. -/
def IsHex (c : Char) : Prop :=
  c ∈ "0123456789abcdefABCDEF".data

/-- The rule `characters`: the content of a string between its quotes. A
character stands for itself unless it is the quote, the backslash or a
control character; a backslash starts an escape. -/
inductive IsChars : List Char → Prop
  | empty : IsChars []
  | plain (c : Char) (rest : List Char) :
      c ≠ '\"' → c ≠ '\\' → 32 ≤ c.toNat → IsChars rest → IsChars (c :: rest)
  | escape (e : Char) (rest : List Char) :
      e ∈ "\"\\/bfnrt".data → IsChars rest → IsChars ('\\' :: e :: rest)
  | unicode (h1 h2 h3 h4 : Char) (rest : List Char) :
      IsHex h1 → IsHex h2 → IsHex h3 → IsHex h4 → IsChars rest →
      IsChars ('\\' :: 'u' :: h1 :: h2 :: h3 :: h4 :: rest)

/-- A decimal digit. -/
def IsDigit (c : Char) : Prop :=
  c ∈ "0123456789".data

/-- The rule `digits`: one decimal digit or more. -/
def IsDigits (ds : List Char) : Prop :=
  ds ≠ [] ∧ ∀ c ∈ ds, IsDigit c

/-- The rule `integer` without its sign: `0`, or a digit from 1 to 9 followed
by any digits. -/
inductive IsInt : List Char → Prop
  | zero : IsInt ['0']
  | nonzero (d : Char) (ds : List Char) :
      d ∈ "123456789".data → (∀ c ∈ ds, IsDigit c) → IsInt (d :: ds)

/-- The rule `fraction`: nothing, or a decimal point and digits. -/
inductive IsFrac : List Char → Prop
  | absent : IsFrac []
  | present (ds : List Char) : IsDigits ds → IsFrac ('.' :: ds)

/-- The rule `sign`: nothing, `+` or `-`. -/
inductive IsSign : List Char → Prop
  | absent : IsSign []
  | plus : IsSign ['+']
  | minus : IsSign ['-']

/-- The rule `exponent`: nothing, or `e` or `E`, a sign and digits. -/
inductive IsExp : List Char → Prop
  | absent : IsExp []
  | present (e : Char) (sign ds : List Char) :
      e = 'e' ∨ e = 'E' → IsSign sign → IsDigits ds → IsExp (e :: (sign ++ ds))

/-- The rule `number`: an optional minus sign, an integer, a fraction and an
exponent. -/
inductive IsNumber : List Char → Prop
  | positive (int frac exp : List Char) :
      IsInt int → IsFrac frac → IsExp exp → IsNumber (int ++ (frac ++ exp))
  | negative (int frac exp : List Char) :
      IsInt int → IsFrac frac → IsExp exp → IsNumber ('-' :: (int ++ (frac ++ exp)))

/-- The key of a member with the whitespace around it: `ws string ws`. -/
inductive IsKey : List Char → Prop
  | mk (before s after : List Char) :
      IsWs before → IsChars s → IsWs after → IsKey (before ++ '\"' :: (s ++ '\"' :: after))

/-- The rule `element`: a value with whitespace around it. The elements of
an array and the members of an object are joined by commas. -/
inductive IsElement : List Char → Prop
  | wsBefore (c : Char) (cs : List Char) : isWs c = true → IsElement cs → IsElement (c :: cs)
  | wsAfter (cs : List Char) (c : Char) : isWs c = true → IsElement cs → IsElement (cs ++ [c])
  | string (s : List Char) : IsChars s → IsElement ('\"' :: (s ++ ['\"']))
  | number (n : List Char) : IsNumber n → IsElement n
  | litTrue : IsElement ['t', 'r', 'u', 'e']
  | litFalse : IsElement ['f', 'a', 'l', 's', 'e']
  | litNull : IsElement ['n', 'u', 'l', 'l']
  | emptyArray (w : List Char) : IsWs w → IsElement ('[' :: (w ++ [']']))
  | array (elements : List (List Char)) :
      elements ≠ [] → (∀ e ∈ elements, IsElement e) →
      IsElement ('[' :: (joinComma elements ++ [']']))
  | emptyObject (w : List Char) : IsWs w → IsElement ('\x7b' :: (w ++ ['\x7d']))
  | object (members : List (List Char × List Char)) :
      members ≠ [] → (∀ m ∈ members, IsKey m.1) → (∀ m ∈ members, IsElement m.2) →
      IsElement ('\x7b' :: (joinComma (members.map (fun m => m.1 ++ ':' :: m.2)) ++ ['\x7d']))

/-- A well-formed JSON text: one element. -/
def IsText (text : String) : Prop :=
  IsElement text.data

/-- What may follow a value: nothing, whitespace, a comma or a closing
bracket or brace. -/
def Delimited : List Char → Prop
  | [] => True
  | c :: _ => isWs c = true ∨ c = ',' ∨ c = ']' ∨ c = '\x7d'

/-- The first character, if any, passes the test. -/
def headAll (p : Char → Bool) : List Char → Bool
  | [] => true
  | c :: _ => p c

/-- The parser reads the text `cs` as one value: whatever delimited text
follows it and with any fuel above its length, `parseValue` succeeds and
stops in the whitespace that ends `cs`; and the first character of `cs` after
its whitespace opens a value. -/
def Parses (cs : List Char) : Prop :=
  (∀ tail, Delimited tail → ∀ fuel, cs.length < fuel →
      ∃ v rest, parseValue fuel (cs ++ tail) = some (v, rest) ∧ skipWs rest = skipWs tail) ∧
    ∀ tail, ∃ d r, skipWs (cs ++ tail) = d :: r ∧ d ≠ ']' ∧ d ≠ '\x7d'

end JSON

/-! ## The browser: `localStorage` and navigation -/

/-- A call that changes the world outside the page's memory. -/
inductive Effect where
  | setItem (key value : String)
  | removeItem (key : String)
  | navigate (href : String)
deriving DecidableEq

/-- The persistent store and the log of effects, oldest first. -/
@[ext]
structure Browser where
  storage : List (String × String)
  effects : List Effect
deriving DecidableEq

namespace Storage

/-- The value stored under `key`, if any. -/
def get (key : String) : List (String × String) → Option String
  | [] => none
  | (k, v) :: rest => if k = key then some v else get key rest

/-- Stores `value` under `key`: in place when the key exists, at the end
otherwise. -/
def set (key value : String) : List (String × String) → List (String × String)
  | [] => [(key, value)]
  | (k, v) :: rest => if k = key then (k, value) :: rest else (k, v) :: set key value rest

/-- Removes the entry under `key`. -/
def remove (key : String) : List (String × String) → List (String × String)
  | [] => []
  | (k, v) :: rest => if k = key then remove key rest else (k, v) :: remove key rest

end Storage

namespace localStorage

/-- The call `localStorage.getItem(key)`: the stored string, or `null`. -/
def getItem (b : Browser) (key : String) : JSVal :=
  match Storage.get key b.storage with
  | some v => .str v
  | none => .null

/-- The call `localStorage.setItem(key, value)`: the value is converted to a
string. -/
def setItem (b : Browser) (key : String) (value : JSVal) : Browser :=
  { storage := Storage.set key value.toStr b.storage
    effects := b.effects ++ [Effect.setItem key value.toStr] }

/-- The call `localStorage.removeItem(key)`. -/
def removeItem (b : Browser) (key : String) : Browser :=
  { storage := Storage.remove key b.storage
    effects := b.effects ++ [Effect.removeItem key] }

end localStorage

/-- The assignment `window.location.href = href`: a navigation. -/
def setLocationHref (b : Browser) (href : String) : Browser :=
  { b with effects := b.effects ++ [Effect.navigate href] }

/-! ## `api/index.js` -/

/-- The request configuration an interceptor receives. axios always supplies
the `headers` object. -/
structure RequestConfig where
  baseURL : String
  url : String
  method : String
  headers : List (String × String)
  params : JSVal
  data : JSVal

/-- The assignment `headers[name] = value`. -/
def setHeader (name value : String) (headers : List (String × String)) :
    List (String × String) :=
  Storage.set name value headers

/-- The value stored under a header name, if any. -/
def getHeader (name : String) (headers : List (String × String)) : Option String :=
  Storage.get name headers

/-- The network and server behind axios: how the request that left the request
interceptor is answered. -/
abbrev Transport := RequestConfig → Outcome

/-- The constant `API_URL`. -/
def API_URL : String := "/api/v1"

namespace api

/-- The request a method of the instance made by `axios.create` builds before
the interceptors run, with the headers given to `axios.create`; the headers
axios adds of its own (`Accept`) are not part of it. -/
def defaultConfig (method url : String) (params data : JSVal) : RequestConfig :=
  { baseURL := API_URL
    url := url
    method := method
    headers := [("Content-Type", "application/json")]
    params := params
    data := data }

namespace interceptors

/-- The handler given to `api.interceptors.request.use`. -/
def request (b : Browser) (config : RequestConfig) : RequestConfig :=
  let token := localStorage.getItem b "token"
  if token.truthy then
    { config with headers := setHeader "Authorization" ("Bearer " ++ token.toStr) config.headers }
  else config

namespace response

/-- The first handler given to `api.interceptors.response.use`. -/
def fulfilled (response : JSVal) : JSVal :=
  response

/-- The second handler given to `api.interceptors.response.use`. Reading
`error.response` throws when `error` is `null` or `undefined`, and the promise
the handler stands for is then rejected with that `TypeError`. -/
def rejected (b : Browser) (error : JSVal) : Browser × Outcome :=
  match error.get "response" with
  | .error thrown => (b, .rejected thrown)
  | .ok response =>
    if (response.getOpt "status").strictEqNum 401 then
      let b1 := localStorage.removeItem b "token"
      let b2 := localStorage.removeItem b1 "user"
      let b3 := setLocationHref b2 "/login"
      (b3, .rejected error)
    else (b, .rejected error)

end response

end interceptors

/-- A request through the instance: the request interceptor, the transport,
then the response interceptor on what the transport answered. -/
def request (b : Browser) (config : RequestConfig) (transport : Transport) : Browser × Outcome :=
  match transport (interceptors.request b config) with
  | .fulfilled response => (b, .fulfilled (interceptors.response.fulfilled response))
  | .rejected error => interceptors.response.rejected b error

/-- The method `api.post(url, data)`. -/
def post (b : Browser) (url : String) (data : JSVal) (transport : Transport) : Browser × Outcome :=
  request b (defaultConfig "post" url .undefined data) transport

end api

namespace authApi

/-- The call `authApi.login(username, password)`. -/
def login (b : Browser) (username password : JSVal) (transport : Transport) : Browser × Outcome :=
  api.post b "/auth/login" (.obj [("username", username), ("password", password)]) transport

end authApi

/-! ## `stores/auth.js` -/

/-- The state of the store `auth`. -/
@[ext]
structure AuthState where
  token : JSVal
  user : JSVal

namespace useAuthStore

/-- The state factory `state: () => (...)`: throws what `JSON.parse` throws. -/
def state (b : Browser) : Except JSVal AuthState :=
  let token := (localStorage.getItem b "token").or .null
  match JSON.parse ((localStorage.getItem b "user").or (.str "null")).toStr with
  | .ok user => .ok { token := token, user := user }
  | .error thrown => .error thrown

/-- The getter `isAuthenticated`. -/
def isAuthenticated (s : AuthState) : Bool :=
  s.token.truthy

/-- The `catch` block of `login`. -/
def loginCatch (error : JSVal) : Outcome :=
  match error.get "response" with
  | .error thrown => .rejected thrown
  | .ok response =>
    .fulfilled (.obj [("success", .bool false),
      ("error", (((response.getOpt "data").getOpt "message").or (.str "Login failed")))])

/-- The action `login(username, password)`: the state and the browser after
the call, and how the promise it returns settles. -/
def login (s : AuthState) (b : Browser) (username password : JSVal) (transport : Transport) :
    AuthState × Browser × Outcome :=
  match authApi.login b username password transport with
  | (b1, .rejected error) => (s, b1, loginCatch error)
  | (b1, .fulfilled response) =>
    match response.get "data" with
    | .error thrown => (s, b1, loginCatch thrown)
    | .ok data =>
      match data.get "accessToken", data.get "username" with
      | .ok accessToken, .ok user =>
        let s1 : AuthState := { token := accessToken, user := .obj [("username", user)] }
        let b2 := localStorage.setItem b1 "token" accessToken
        let b3 := localStorage.setItem b2 "user" (JSON.stringify (.obj [("username", user)]))
        (s1, b3, .fulfilled (.obj [("success", .bool true)]))
      | .error thrown, _ => (s, b1, loginCatch thrown)
      | _, .error thrown => (s, b1, loginCatch thrown)

/-- The action `logout()`. -/
def logout (s : AuthState) (b : Browser) : AuthState × Browser :=
  let s1 : AuthState := { s with token := .null }
  let s2 : AuthState := { s1 with user := .null }
  let b1 := localStorage.removeItem b "token"
  let b2 := localStorage.removeItem b1 "user"
  (s2, b2)

end useAuthStore

/-! ## The system as a whole: calls in sequence -/

/-- The store's state together with the browser it runs in. -/
structure System where
  auth : AuthState
  browser : Browser

/-- A call of one of the store's two actions. -/
inductive Call where
  | login (username password : JSVal) (transport : Transport)
  | logout

/-- The request `authApi.login` hands to the transport: the `post` request after
the request interceptor. -/
def loginRequest (b : Browser) (username password : JSVal) : RequestConfig :=
  api.interceptors.request b
    (api.defaultConfig "post" "/auth/login" .undefined
      (.obj [("username", username), ("password", password)]))

/-- Whether a settled `login` reports success: it resolved with an object whose
`success` is `true`. -/
def loginSucceeded : Outcome → Bool
  | .fulfilled result =>
    match result.getOpt "success" with
    | .bool b => b
    | _ => false
  | .rejected _ => false

namespace System

/-- The system after one call. The response interceptor and the actions are
the only writers. -/
def step (sys : System) : Call → System
  | .login username password transport =>
    let r := useAuthStore.login sys.auth sys.browser username password transport
    { auth := r.1, browser := r.2.1 }
  | .logout =>
    let r := useAuthStore.logout sys.auth sys.browser
    { auth := r.1, browser := r.2 }

/-- The system after a sequence of calls. -/
def run (sys : System) : List Call → System
  | [] => sys
  | c :: rest => run (sys.step c) rest

/-- The system after the response interceptor handled the failure `error` of
some request: the handler has the browser in its hands, not the store. -/
def onResponseError (sys : System) (error : JSVal) : System :=
  { sys with browser := (api.interceptors.response.rejected sys.browser error).1 }

/-- A call is admissible for a payload test `ok` when it is a logout, a login
that does not report success, or a login answered with a response that
passes `ok`. -/
def admissible (ok : JSVal → Bool) (sys : System) : Call → Bool
  | .logout => true
  | .login username password transport =>
    !(loginSucceeded (useAuthStore.login sys.auth sys.browser username password transport).2.2) ||
      (match transport (loginRequest sys.browser username password) with
        | .fulfilled response => ok response
        | .rejected _ => false)

/-- Every call of the sequence is admissible in the state it is made in. -/
def admissibleRun (ok : JSVal → Bool) : System → List Call → Bool
  | _, [] => true
  | sys, c :: rest => admissible ok sys c && admissibleRun ok (sys.step c) rest

end System

namespace JSVal

/-- Whether the value is a string. -/
def isStr : JSVal → Bool
  | str _ => true
  | _ => false

/-- Whether the value is a string other than `""`. -/
def isNonEmptyStr : JSVal → Bool
  | str s => s != ""
  | _ => false

end JSVal

/-- The response payload holds an `accessToken` string and a `username`
string. -/
def payloadHasStrings (response : JSVal) : Bool :=
  ((response.getOpt "data").getOpt "accessToken").isStr &&
    ((response.getOpt "data").getOpt "username").isStr

/-- The response payload holds a non-empty `accessToken` string and a
`username` string. -/
def payloadHasToken (response : JSVal) : Bool :=
  ((response.getOpt "data").getOpt "accessToken").isNonEmptyStr &&
    ((response.getOpt "data").getOpt "username").isStr

namespace AuthState

/-- The token is present: neither `null` nor `undefined` nor `""`. -/
def tokenPresent (s : AuthState) : Bool :=
  match s.token with
  | .null => false
  | .undefined => false
  | .str t => t != ""
  | _ => true

/-- The user is present: neither `null` nor `undefined`. -/
def userPresent (s : AuthState) : Bool :=
  !s.user.isNullish

end AuthState

/-! ## The session invariant, as a shape of the store state -/

/-- The shape of a store state in which token and user go together: both
`null`, or a non-empty token string with a user record. -/
def AuthState.Paired (s : AuthState) : Prop :=
  (s.token = .null ∧ s.user = .null) ∨
    ∃ t u, t ≠ "" ∧ s.token = .str t ∧ s.user = .obj [("username", .str u)]

/-! ## Fixtures: the inputs of the spec's scenario -/

namespace Fixture

/-- An empty persistent store and an empty log. -/
def coldBrowser : Browser :=
  { storage := [], effects := [] }

/-- A browser holding a session and an entry of another feature. -/
def sessionBrowser : Browser :=
  { storage := [("theme", "dark"), ("token", "tok1"), ("user", "\x7b\"username\":\"alice\"\x7d")]
    effects := [] }

/-- The state of a store that holds the session of `sessionBrowser`. -/
def sessionState : AuthState :=
  { token := .str "tok1", user := .obj [("username", .str "alice")] }

/-- An error that carries a response with the given status and body. -/
def httpError (status : JSNumber) (body : JSVal) : JSVal :=
  .obj [("message", .str "Request failed"),
    ("response", .obj [("status", .num status), ("data", body)])]

/-- An error that carries no response: a network failure. -/
def networkError : JSVal :=
  .obj [("message", .str "Network Error")]

/-- A transport that answers every request with the given payload. -/
def answering (payload : JSVal) : Transport :=
  fun _ => .fulfilled (.obj [("status", .num 200), ("data", payload)])

/-- A transport that fails every request with the given error. -/
def failing (error : JSVal) : Transport :=
  fun _ => .rejected error

/-- The payload of a successful login. -/
def loginPayload (accessToken username : String) : JSVal :=
  .obj [("accessToken", .str accessToken), ("username", .str username)]

/-- The request `projectsApi.getAll()` builds. -/
def projectsRequest : RequestConfig :=
  api.defaultConfig "get" "/projects" .undefined .undefined

/-- A sequence of calls: a login answered 500, a successful login, a logout
and a successful login of another user. -/
def rotationCalls : List Call :=
  [Call.login (.str "alice") (.str "wrong") (failing (httpError 500 .null)),
    Call.login (.str "alice") (.str "secret") (answering (loginPayload "tok1" "alice")),
    Call.logout,
    Call.login (.str "bob") (.str "secret") (answering (loginPayload "tok2" "bob"))]

end Fixture

/-! ## Coherence of the store state with the persistent store -/

namespace System

/-- A call that is not a login answered with a 401: a logout, a login the
transport answers, or a login it rejects with an error whose response status
is not 401 (or that has no response). -/
def notUnauthorized (sys : System) : Call → Bool
  | .logout => true
  | .login username password transport =>
    match transport (loginRequest sys.browser username password) with
    | .fulfilled _ => true
    | .rejected error => !((error.getOpt "response").getOpt "status").strictEqNum 401

/-- Every call of the sequence is admissible for the payload test
`payloadHasToken` and is not a login answered with a 401, in the state it is
made in. -/
def quietRun : System → List Call → Bool
  | _, [] => true
  | sys, c :: rest =>
    admissible payloadHasToken sys c && notUnauthorized sys c && quietRun (sys.step c) rest

/-- The persistent `token` entry and the store's token agree: no entry and
`null`, or a non-empty entry and that string. -/
def TokenCoherent (sys : System) : Prop :=
  match Storage.get "token" sys.browser.storage with
  | none => sys.auth.token = .null
  | some t => t ≠ "" ∧ sys.auth.token = .str t

/-- The persistent `user` entry and the store's user agree: no entry and
`null`, or an entry that parses to the store's user, which is a record with
a `username` string. -/
def UserCoherent (sys : System) : Prop :=
  match Storage.get "user" sys.browser.storage with
  | none => sys.auth.user = .null
  | some text =>
    (∃ u, sys.auth.user = .obj [("username", .str u)]) ∧ JSON.parse text = .ok sys.auth.user

end System

/-- A persistent store as this core leaves it: without `token` and `user`, or
with the two entries a successful login wrote for a non-empty token. -/
def Browser.WrittenByCore (b : Browser) : Prop :=
  (Storage.get "token" b.storage = none ∧ Storage.get "user" b.storage = none) ∨
    ∃ t u text, t ≠ "" ∧ Storage.get "token" b.storage = some t ∧
      JSON.stringify (.obj [("username", .str u)]) = .str text ∧
      Storage.get "user" b.storage = some text

/-! ## Lemmas on the persistent store -/

namespace Storage

theorem get_remove_self (key : String) (st : List (String × String)) :
    get key (remove key st) = none := by
  induction st with
  | nil => rfl
  | cons p rest ih =>
    obtain ⟨k, v⟩ := p
    by_cases h : k = key
    · simp [remove, h, ih]
    · simp [remove, get, h, ih]

theorem get_remove_ne {key other : String} (h : key ≠ other) (st : List (String × String)) :
    get key (remove other st) = get key st := by
  induction st with
  | nil => rfl
  | cons p rest ih =>
    obtain ⟨k, v⟩ := p
    by_cases hk : k = other
    · subst hk
      have hne : ¬ k = key := fun e => h e.symm
      simp [remove, get, hne, ih]
    · by_cases hk2 : k = key
      · subst hk2
        simp [remove, get, hk]
      · simp [remove, get, hk, hk2, ih]

theorem remove_of_get_none {key : String} {st : List (String × String)}
    (h : get key st = none) : remove key st = st := by
  induction st with
  | nil => rfl
  | cons p rest ih =>
    obtain ⟨k, v⟩ := p
    by_cases hk : k = key
    · simp [get, hk] at h
    · simp only [get, hk, if_false] at h
      simp [remove, hk, ih h]

theorem get_set_self (key value : String) (st : List (String × String)) :
    get key (set key value st) = some value := by
  induction st with
  | nil => simp [set, get]
  | cons p rest ih =>
    obtain ⟨k, v⟩ := p
    by_cases hk : k = key
    · simp [set, get, hk]
    · simp [set, get, hk, ih]

theorem get_set_ne {key other : String} (h : key ≠ other) (value : String)
    (st : List (String × String)) : get key (set other value st) = get key st := by
  induction st with
  | nil =>
    have : ¬ other = key := fun e => h e.symm
    simp [set, get, this]
  | cons p rest ih =>
    obtain ⟨k, v⟩ := p
    by_cases hk : k = other
    · subst hk
      have hne : ¬ k = key := fun e => h e.symm
      simp [set, get, hne]
    · by_cases hk2 : k = key
      · subst hk2
        simp [set, get, hk]
      · simp [set, get, hk, hk2, ih]

theorem remove_remove_self (key : String) (st : List (String × String)) :
    remove key (remove key st) = remove key st :=
  remove_of_get_none (get_remove_self key st)

theorem remove_comm (a b : String) (st : List (String × String)) :
    remove a (remove b st) = remove b (remove a st) := by
  induction st with
  | nil => rfl
  | cons p rest ih =>
    obtain ⟨k, v⟩ := p
    by_cases ha : k = a
    · subst ha
      by_cases hb : k = b
      · subst hb
        simp [remove, ih]
      · simp [remove, hb, ih]
    · by_cases hb : k = b
      · subst hb
        simp [remove, ha, ih]
      · simp [remove, ha, hb, ih]

end Storage

/-! ## Lemmas on values and on the interceptors -/

namespace JSVal

theorem strictEqNum_iff (v : JSVal) : v.strictEqNum 401 = true ↔ v = num 401 := by
  have h0 : ¬ ((401 : Nat) : ℚ) = 0 := by norm_num
  cases v with
  | num m =>
    cases m with
    | finite q => simp [strictEqNum, JSNumber.strictEq, OfNat.ofNat]
    | negZero =>
      simp only [strictEqNum, JSNumber.strictEq, OfNat.ofNat, decide_eq_true_eq]
      constructor
      · intro h
        exact absurd h h0
      · intro h
        simp at h
    | posInf => simp [strictEqNum, JSNumber.strictEq, OfNat.ofNat]
    | negInf => simp [strictEqNum, JSNumber.strictEq, OfNat.ofNat]
    | nan => simp [strictEqNum, JSNumber.strictEq, OfNat.ofNat]
  | _ => simp [strictEqNum]

theorem getOpt_of_isNullish {v : JSVal} (h : v.isNullish = true) (key : String) :
    v.getOpt key = undefined := by
  cases v <;> simp [isNullish] at h <;> rfl

theorem get_eq_ok_getOpt {v : JSVal} (h : v.isNullish = false) (key : String) :
    v.get key = .ok (v.getOpt key) := by
  cases v <;> simp [isNullish] at h <;> rfl

theorem not_nullish_of_getOpt_eq_str {v : JSVal} {key t : String}
    (h : v.getOpt key = str t) : v.isNullish = false := by
  cases v <;> first | rfl | simp [getOpt] at h

theorem get_of_isNullish {v : JSVal} (h : v.isNullish = true) (key : String) :
    ∃ message, v.get key = .error (typeError message) := by
  cases v <;> simp [isNullish] at h
  · exact ⟨_, rfl⟩
  · exact ⟨_, rfl⟩

end JSVal

namespace api.interceptors.response

/-- The browser the failure handler leaves behind on a 401. -/
theorem rejected_browser_of_unauthorized (b : Browser) (error : JSVal)
    (h : (error.getOpt "response").getOpt "status" = .num 401) :
    (rejected b error).1 =
      { storage := Storage.remove "user" (Storage.remove "token" b.storage)
        effects := b.effects ++
          [Effect.removeItem "token", Effect.removeItem "user", Effect.navigate "/login"] } := by
  cases error <;> simp [JSVal.getOpt] at h
  case obj props =>
    have h2 : ((JSVal.lookup "response" props).getOpt "status").strictEqNum 401 = true :=
      (JSVal.strictEqNum_iff _).2 h
    simp [rejected, JSVal.get, h2, localStorage.removeItem, setLocationHref]

/-- The failure handler leaves the browser alone on anything but a 401. -/
theorem rejected_browser_of_other (b : Browser) (error : JSVal)
    (h : (error.getOpt "response").getOpt "status" ≠ .num 401) :
    (rejected b error).1 = b := by
  cases error <;> try rfl
  case obj props =>
    have h2 : ((JSVal.lookup "response" props).getOpt "status").strictEqNum 401 = false := by
      cases hs : ((JSVal.lookup "response" props).getOpt "status").strictEqNum 401
      · rfl
      · exact absurd ((JSVal.strictEqNum_iff _).1 hs) h
    simp [rejected, JSVal.get, h2]

/-- The failure handler rejects with the error it was given, when reading a
property of that error does not throw. -/
theorem rejected_outcome (b : Browser) (error : JSVal) (h : error.isNullish = false) :
    (rejected b error).2 = .rejected error := by
  unfold rejected
  rw [JSVal.get_eq_ok_getOpt h]
  dsimp only
  split <;> rfl

/-- On `null` or `undefined` the failure handler throws a `TypeError` and
leaves the browser alone. -/
theorem rejected_of_isNullish (b : Browser) (error : JSVal) (h : error.isNullish = true) :
    ∃ message, rejected b error = (b, .rejected (JSVal.typeError message)) := by
  cases error <;> simp [JSVal.isNullish] at h
  · exact ⟨_, rfl⟩
  · exact ⟨_, rfl⟩

end api.interceptors.response

/-! ## Lemmas on `login` -/

namespace useAuthStore

/-- The failure result with the generic message. -/
theorem loginCatch_typeError (message : String) :
    loginCatch (JSVal.typeError message) =
      .fulfilled (.obj [("success", .bool false), ("error", .str "Login failed")]) := by
  rfl

/-- The `catch` block returns a failure result whenever reading a property of
the caught value does not throw. -/
theorem loginCatch_of_not_nullish {error : JSVal} (h : error.isNullish = false) :
    loginCatch error =
      .fulfilled (.obj [("success", .bool false),
        ("error", (((error.getOpt "response").getOpt "data").getOpt "message").or
          (.str "Login failed"))]) := by
  unfold loginCatch
  rw [JSVal.get_eq_ok_getOpt h]

/-- What `authApi.login` gives when the transport rejects. -/
theorem authApi_login_of_rejected {b : Browser} {username password : JSVal}
    {transport : Transport} {error : JSVal}
    (h : transport (loginRequest b username password) = .rejected error) :
    authApi.login b username password transport = api.interceptors.response.rejected b error := by
  unfold loginRequest at h
  simp only [authApi.login, api.post, api.request, h]

/-- What `authApi.login` gives when the transport answers. -/
theorem authApi_login_of_fulfilled {b : Browser} {username password : JSVal}
    {transport : Transport} {response : JSVal}
    (h : transport (loginRequest b username password) = .fulfilled response) :
    authApi.login b username password transport = (b, .fulfilled response) := by
  unfold loginRequest at h
  simp only [authApi.login, api.post, api.request, h, api.interceptors.response.fulfilled]

/-- A rejected login call whose error is an ordinary value: the state is kept
and the `catch` block runs on that error. -/
theorem login_of_rejected {s : AuthState} {b : Browser} {username password : JSVal}
    {transport : Transport} {error : JSVal}
    (h : transport (loginRequest b username password) = .rejected error)
    (hn : error.isNullish = false) :
    login s b username password transport =
      (s, (api.interceptors.response.rejected b error).1, loginCatch error) := by
  have h2 := api.interceptors.response.rejected_outcome b error hn
  unfold login
  rw [authApi_login_of_rejected h]
  generalize api.interceptors.response.rejected b error = r at h2
  obtain ⟨b1, o⟩ := r
  simp only at h2
  subst h2
  rfl

/-- A rejected login call whose error is `null` or `undefined`: the response
interceptor throws a `TypeError`, which the `catch` block turns into the
generic failure. -/
theorem login_of_rejected_nullish {s : AuthState} {b : Browser} {username password : JSVal}
    {transport : Transport} {error : JSVal}
    (h : transport (loginRequest b username password) = .rejected error)
    (hn : error.isNullish = true) :
    login s b username password transport =
      (s, b, .fulfilled (.obj [("success", .bool false), ("error", .str "Login failed")])) := by
  obtain ⟨message, hm⟩ := api.interceptors.response.rejected_of_isNullish b error hn
  unfold login
  rw [authApi_login_of_rejected h, hm]
  rfl

/-- An answered login call whose response has no readable payload: the state
and the browser are kept and the generic failure is returned. -/
theorem login_of_fulfilled_no_data {s : AuthState} {b : Browser} {username password : JSVal}
    {transport : Transport} {response : JSVal}
    (h : transport (loginRequest b username password) = .fulfilled response)
    (hn : response.isNullish = true ∨ (response.getOpt "data").isNullish = true) :
    login s b username password transport =
      (s, b, .fulfilled (.obj [("success", .bool false), ("error", .str "Login failed")])) := by
  unfold login
  rw [authApi_login_of_fulfilled h]
  by_cases hr : response.isNullish = true
  · obtain ⟨message, hm⟩ := JSVal.get_of_isNullish hr "data"
    simp only [hm]
    rfl
  · have hr2 : response.isNullish = false := by simpa using hr
    have hd : (response.getOpt "data").isNullish = true := by
      rcases hn with hn | hn
      · exact absurd hn hr
      · exact hn
    simp only [JSVal.get_eq_ok_getOpt hr2]
    obtain ⟨m1, hm1⟩ := JSVal.get_of_isNullish hd "accessToken"
    simp only [hm1]
    rfl

/-- An answered login call whose response has a payload: the state and the
persistent store take the payload's `accessToken` and `username`, and the
success result is returned. -/
theorem login_of_fulfilled_data {s : AuthState} {b : Browser} {username password : JSVal}
    {transport : Transport} {response : JSVal}
    (h : transport (loginRequest b username password) = .fulfilled response)
    (hd : (response.getOpt "data").isNullish = false) :
    login s b username password transport =
      ({ token := (response.getOpt "data").getOpt "accessToken"
         user := .obj [("username", (response.getOpt "data").getOpt "username")] },
       localStorage.setItem
         (localStorage.setItem b "token" ((response.getOpt "data").getOpt "accessToken"))
         "user" (JSON.stringify (.obj [("username", (response.getOpt "data").getOpt "username")])),
       .fulfilled (.obj [("success", .bool true)])) := by
  have hr : response.isNullish = false := by
    cases response <;> simp [JSVal.getOpt, JSVal.isNullish] at hd ⊢
  unfold login
  rw [authApi_login_of_fulfilled h]
  simp only [JSVal.get_eq_ok_getOpt hr, JSVal.get_eq_ok_getOpt hd]

end useAuthStore

/-! ## Lemmas on JSON: what `stringify` writes, `parse` reads back -/

namespace JSON

theorem hex4_control (n : Nat) (h : n < 32) :
    hex4 '0' '0' (hexDigit (n / 16)) (hexDigit (n % 16)) = some n := by
  revert n
  decide

theorem char_not_surrogate (c : Char) : ¬ (0xD800 ≤ c.toNat ∧ c.toNat < 0xE000) := by
  have h := c.valid
  simp only [UInt32.isValidChar, Nat.isValidChar] at h
  show ¬ (0xD800 ≤ c.val.toNat ∧ c.val.toNat < 0xE000)
  omega

theorem unitChar_toNat (c : Char) : unitChar c.toNat = c := by
  unfold unitChar
  rw [if_neg (char_not_surrogate c)]
  exact Char.ofNat_toNat c

theorem decodeUnits_cons (c : Char) (units : List Nat) :
    decodeUnits (c.toNat :: units) = c :: decodeUnits units := by
  cases units with
  | nil => simp [decodeUnits, unitChar_toNat]
  | cons lo rest =>
    have h := char_not_surrogate c
    have h2 : ¬ (0xD800 ≤ c.toNat ∧ c.toNat < 0xDC00 ∧ 0xDC00 ≤ lo ∧ lo < 0xE000) := by omega
    rw [decodeUnits, if_neg h2, unitChar_toNat]

theorem decodeUnits_map (s : List Char) : decodeUnits (s.map Char.toNat) = s := by
  induction s with
  | nil => rfl
  | cons c rest ih => rw [List.map_cons, decodeUnits_cons, ih]

theorem parseUnits_quote (tail : List Char) : parseUnits ('\"' :: tail) = some ([], tail) := by
  rw [parseUnits.eq_def]
  simp

theorem parseUnits_plain (c : Char) (tail : List Char) (h1 : c ≠ '\"') (h2 : c ≠ '\\')
    (h3 : ¬ c.toNat < 32) : parseUnits (c :: tail) = consUnit c.toNat (parseUnits tail) := by
  rw [parseUnits.eq_def]
  simp [h1, h2, h3]

theorem parseUnits_escape (e ch : Char) (tail : List Char) (h1 : e ≠ 'u')
    (h2 : unescape e = some ch) :
    parseUnits ('\\' :: e :: tail) = consUnit ch.toNat (parseUnits tail) := by
  rw [parseUnits.eq_def]
  simp [h1, h2]

theorem parseUnits_escapeU (h1 h2 h3 h4 : Char) (n : Nat) (tail : List Char)
    (h : hex4 h1 h2 h3 h4 = some n) :
    parseUnits ('\\' :: 'u' :: h1 :: h2 :: h3 :: h4 :: tail) = consUnit n (parseUnits tail) := by
  rw [parseUnits.eq_def]
  simp [h]

theorem parseUnits_escapeChar (c : Char) (tail : List Char) :
    parseUnits (escapeChar c ++ tail) = consUnit c.toNat (parseUnits tail) := by
  unfold escapeChar
  by_cases h1 : c = '\"'
  · subst h1; exact parseUnits_escape _ _ _ (by decide) (by decide)
  by_cases h2 : c = '\\'
  · subst h2; exact parseUnits_escape _ _ _ (by decide) (by decide)
  by_cases h3 : c = '\x08'
  · subst h3; exact parseUnits_escape _ _ _ (by decide) (by decide)
  by_cases h4 : c = '\x0c'
  · subst h4; exact parseUnits_escape _ _ _ (by decide) (by decide)
  by_cases h5 : c = '\n'
  · subst h5; exact parseUnits_escape _ _ _ (by decide) (by decide)
  by_cases h6 : c = '\r'
  · subst h6; exact parseUnits_escape _ _ _ (by decide) (by decide)
  by_cases h7 : c = '\t'
  · subst h7; exact parseUnits_escape _ _ _ (by decide) (by decide)
  by_cases h8 : c.toNat < 32
  · simp only [h1, h2, h3, h4, h5, h6, h7, h8, if_false, if_true, List.cons_append, List.nil_append]
    exact parseUnits_escapeU _ _ _ _ _ _ (hex4_control c.toNat h8)
  · simp only [h1, h2, h3, h4, h5, h6, h7, h8, if_false, List.cons_append, List.nil_append]
    exact parseUnits_plain c tail h1 h2 h8

theorem parseUnits_escapeChars (s tail : List Char) :
    parseUnits (escapeChars s ++ '\"' :: tail) = some (s.map Char.toNat, tail) := by
  induction s with
  | nil => exact parseUnits_quote tail
  | cons c rest ih =>
    rw [escapeChars, List.append_assoc, parseUnits_escapeChar, ih]
    rfl

theorem parseChars_quote (s tail : List Char) :
    parseChars (escapeChars s ++ '\"' :: tail) = some (s, tail) := by
  simp [parseChars, parseUnits_escapeChars, decodeUnits_map]


theorem skipWs_of_not_ws (c : Char) (tail : List Char) (h : isWs c = false) :
    skipWs (c :: tail) = c :: tail := by
  simp [skipWs, h]

theorem parseValue_string (fuel : Nat) (s tail : List Char) :
    parseValue (fuel + 1) (quote s ++ tail) = some (.str (String.mk s), tail) := by
  rw [parseValue.eq_def]
  have h : skipWs (quote s ++ tail) = '\"' :: (escapeChars s ++ '\"' :: tail) := by
    simp [quote, skipWs, isWs]
  simp only [h]
  simp [parseChars_quote]

theorem parseValue_member (fuel : Nat) (k v tail : List Char) :
    parseValue (fuel + 3) ('\x7b' :: (quote k ++ ':' :: quote v ++ '\x7d' :: tail)) =
      some (.obj [(String.mk k, .str (String.mk v))], tail) := by
  rw [parseValue.eq_def]
  have h1 : skipWs ('\x7b' :: (quote k ++ ':' :: quote v ++ '\x7d' :: tail)) =
      '\x7b' :: '\"' :: (escapeChars k ++ '\"' :: ':' :: (quote v ++ '\x7d' :: tail)) := by
    simp [quote, skipWs, isWs]
  simp only [h1]
  have h2 : skipWs ('\"' :: (escapeChars k ++ '\"' :: ':' :: (quote v ++ '\x7d' :: tail))) =
      '\"' :: (escapeChars k ++ '\"' :: ':' :: (quote v ++ '\x7d' :: tail)) := by
    simp [skipWs, isWs]
  simp only [h2]
  rw [parseMembers.eq_def]
  simp only [h2]
  have h3 : skipWs (':' :: (quote v ++ '\x7d' :: tail)) = ':' :: (quote v ++ '\x7d' :: tail) := by
    simp [skipWs, isWs]
  have h4 : skipWs ('\x7d' :: tail) = '\x7d' :: tail := by
    simp [skipWs, isWs]
  simp [parseChars_quote, h3, parseValue_string, h4, JSVal.setProp]

theorem parse_stringify_member (k v : String) :
    ∃ text, stringify (.obj [(k, .str v)]) = .str text ∧
      parse text = .ok (.obj [(k, .str v)]) := by
  refine ⟨String.mk ('\x7b' :: (quote k.data ++ ':' :: quote v.data ++ ['\x7d'])), ?_, ?_⟩
  · simp [stringify, stringifyVal, stringifyProps, joinComma]
  · unfold parse
    have hlen : ∃ n, (String.mk ('\x7b' :: (quote k.data ++ ':' :: quote v.data ++
        ['\x7d']))).data.length + 1 = n + 3 := by
      refine ⟨(quote k.data ++ ':' :: quote v.data).length, ?_⟩
      simp
      omega
    obtain ⟨n, hn⟩ := hlen
    rw [hn]
    simp only []
    rw [parseValue_member]
    simp [skipWs]

end JSON

/-! ## Lemmas on JSON: the parser reads every text of the grammar -/

namespace JSON

theorem isDigit_of_IsDigit {c : Char} (h : IsDigit c) : c.isDigit = true := by
  simp only [IsDigit, List.mem_cons, List.mem_singleton, List.not_mem_nil, or_false] at h
  rcases h with h | h | h | h | h | h | h | h | h | h <;> subst h <;> decide

theorem takeDigits_append (ds rest : List Char) (h : ∀ c ∈ ds, IsDigit c)
    (hr : headAll (fun c => !c.isDigit) rest = true) : takeDigits (ds ++ rest) = (ds, rest) := by
  induction ds with
  | nil =>
    cases rest with
    | nil => rfl
    | cons c r =>
      have hc : c.isDigit = false := by simpa [headAll] using hr
      simp [takeDigits, hc]
  | cons d ds ih =>
    have hd := isDigit_of_IsDigit (h d (List.mem_cons_self _ _))
    have ih2 := ih (fun c hc => h c (List.mem_cons_of_mem _ hc))
    simp [takeDigits, hd, ih2]


/-- After a fraction part the parser is at what follows it. -/
theorem parseFrac_complete (frac rest : List Char) (h : IsFrac frac)
    (hr : headAll (fun c => !c.isDigit && c != '.') rest = true) :
    ∃ fs, parseFrac (frac ++ rest) = some (fs, rest) := by
  cases h with
  | absent =>
    cases rest with
    | nil => exact ⟨[], rfl⟩
    | cons c r =>
      have hc : c ≠ '.' := by
        simp [headAll] at hr
        exact hr.2
      exact ⟨[], by simp [parseFrac, hc]⟩
  | present ds hds =>
    have hr2 : headAll (fun c => !c.isDigit) rest = true := by
      cases rest with
      | nil => rfl
      | cons c r =>
        simp [headAll] at hr ⊢
        exact hr.1
    have ht := takeDigits_append ds rest hds.2 hr2
    refine ⟨ds, ?_⟩
    simp [parseFrac, ht, hds.1]

theorem parseExpDigits_complete (neg : Bool) (ds rest : List Char) (h : IsDigits ds)
    (hr : headAll (fun c => !c.isDigit) rest = true) :
    ∃ x, parseExpDigits neg (ds ++ rest) = some (x, rest) := by
  have ht := takeDigits_append ds rest h.2 hr
  refine ⟨if neg then - (digitsVal ds : Int) else digitsVal ds, ?_⟩
  simp [parseExpDigits, ht, h.1]

/-- After an exponent part the parser is at what follows it. -/
theorem parseExp_complete (exp rest : List Char) (h : IsExp exp)
    (hr : headAll (fun c => !c.isDigit && c != 'e' && c != 'E') rest = true) :
    ∃ x, parseExp (exp ++ rest) = some (x, rest) := by
  have hr2 : headAll (fun c => !c.isDigit) rest = true := by
    cases rest with
    | nil => rfl
    | cons c r =>
      simp [headAll] at hr ⊢
      exact hr.1.1
  cases h with
  | absent =>
    cases rest with
    | nil => exact ⟨0, rfl⟩
    | cons c r =>
      simp [headAll] at hr
      exact ⟨0, by simp [parseExp, hr.1.2, hr.2]⟩
  | present e sign ds he hs hds =>
    have he2 : (e = 'e' ∨ e = 'E') = True := by simp [he]
    cases hs with
    | absent =>
      obtain ⟨x, hx⟩ := parseExpDigits_complete false ds rest hds hr2
      obtain ⟨d, ds2, hd⟩ := List.exists_cons_of_ne_nil hds.1
      have hdig := isDigit_of_IsDigit (hds.2 d (by rw [hd]; exact List.mem_cons_self _ _))
      have h1 : d ≠ '-' := by
        intro h; subst h; exact absurd hdig (by decide)
      have h2 : d ≠ '+' := by
        intro h; subst h; exact absurd hdig (by decide)
      refine ⟨x, ?_⟩
      subst hd
      simp only [List.nil_append, List.cons_append, parseExp, he2, if_true, h1, h2, if_false]
      exact hx
    | plus =>
      obtain ⟨x, hx⟩ := parseExpDigits_complete false ds rest hds hr2
      refine ⟨x, ?_⟩
      simp only [List.cons_append, List.nil_append, parseExp, he2, if_true]
      simp [hx]
    | minus =>
      obtain ⟨x, hx⟩ := parseExpDigits_complete true ds rest hds hr2
      refine ⟨x, ?_⟩
      simp only [List.cons_append, List.nil_append, parseExp, he2, if_true]
      simp [hx]


theorem isWs_cases {c : Char} (h : isWs c = true) : c = ' ' ∨ c = '\t' ∨ c = '\n' ∨ c = '\r' := by
  simp only [isWs, Bool.or_eq_true, decide_eq_true_eq] at h
  rcases h with ((h | h) | h) | h
  · exact Or.inl h
  · exact Or.inr (Or.inl h)
  · exact Or.inr (Or.inr (Or.inl h))
  · exact Or.inr (Or.inr (Or.inr h))

theorem delimiter_cases {c : Char} (h : isWs c = true ∨ c = ',' ∨ c = ']' ∨ c = '\x7d') :
    c = ' ' ∨ c = '\t' ∨ c = '\n' ∨ c = '\r' ∨ c = ',' ∨ c = ']' ∨ c = '\x7d' := by
  rcases h with h | h | h | h
  · rcases isWs_cases h with h | h | h | h <;> simp [h]
  · simp [h]
  · simp [h]
  · simp [h]

/-- A test that holds of every delimiter holds of the head of a delimited
list. -/
theorem headAll_of_delimited (p : Char → Bool) {tail : List Char} (h : Delimited tail)
    (hp : p ' ' = true ∧ p '\t' = true ∧ p '\n' = true ∧ p '\r' = true ∧ p ',' = true ∧
      p ']' = true ∧ p '\x7d' = true) : headAll p tail = true := by
  cases tail with
  | nil => rfl
  | cons c r =>
    have hc := delimiter_cases (c := c) h
    simp only [headAll]
    rcases hc with h | h | h | h | h | h | h <;> subst h
    · exact hp.1
    · exact hp.2.1
    · exact hp.2.2.1
    · exact hp.2.2.2.1
    · exact hp.2.2.2.2.1
    · exact hp.2.2.2.2.2.1
    · exact hp.2.2.2.2.2.2

theorem headAll_exp_append (p : Char → Bool) {exp tail : List Char} (h : IsExp exp)
    (he : p 'e' = true ∧ p 'E' = true) (ht : headAll p tail = true) :
    headAll p (exp ++ tail) = true := by
  cases h with
  | absent => exact ht
  | present e sign ds hee _ _ =>
    rcases hee with hee | hee <;> subst hee
    · exact he.1
    · exact he.2

theorem headAll_frac_append (p : Char → Bool) {frac rest : List Char} (h : IsFrac frac)
    (hd : p '.' = true) (ht : headAll p rest = true) : headAll p (frac ++ rest) = true := by
  cases h with
  | absent => exact ht
  | present ds _ => exact hd

/-- The numeral after its sign is read in full, up to the delimiter. -/
theorem parseUnsigned_complete (neg : Bool) (int frac exp tail : List Char) (hi : IsInt int)
    (hf : IsFrac frac) (he : IsExp exp) (ht : Delimited tail) :
    ∃ x, parseUnsigned neg (int ++ (frac ++ (exp ++ tail))) = some (.num x, tail) := by
  have h1 : headAll (fun c => !c.isDigit) (frac ++ (exp ++ tail)) = true :=
    headAll_frac_append _ hf (by decide)
      (headAll_exp_append _ he (by decide) (headAll_of_delimited _ ht (by decide)))
  have h2 : headAll (fun c => !c.isDigit && c != '.') (exp ++ tail) = true :=
    headAll_exp_append _ he (by decide) (headAll_of_delimited _ ht (by decide))
  have h3 : headAll (fun c => !c.isDigit && c != 'e' && c != 'E') tail = true :=
    headAll_of_delimited _ ht (by decide)
  obtain ⟨fs, hfs⟩ := parseFrac_complete frac (exp ++ tail) hf h2
  obtain ⟨x, hx⟩ := parseExp_complete exp tail he h3
  cases hi with
  | zero =>
    have htd := takeDigits_append ['0'] (frac ++ (exp ++ tail))
      (by intro c hc; simp at hc; subst hc; simp [IsDigit]) h1
    refine ⟨JSNumber.ofDecimal neg (digitsVal ('0' :: [] ++ fs)) (x - fs.length), ?_⟩
    unfold parseUnsigned
    rw [htd]
    simp [hfs, hx]
  | nonzero d ds hd hds =>
    have hdd : IsDigit d := by
      simp only [List.mem_cons, List.mem_singleton, List.not_mem_nil, or_false] at hd
      rcases hd with h | h | h | h | h | h | h | h | h <;> subst h <;> simp [IsDigit]
    have hd0 : d ≠ '0' := by
      intro h0
      subst h0
      simp at hd
    have htd := takeDigits_append (d :: ds) (frac ++ (exp ++ tail))
      (by
        intro c hc
        rcases List.mem_cons.1 hc with hc | hc
        · subst hc; exact hdd
        · exact hds c hc) h1
    refine ⟨JSNumber.ofDecimal neg (digitsVal (d :: ds ++ fs)) (x - fs.length), ?_⟩
    unfold parseUnsigned
    rw [htd]
    simp [hfs, hx, hd0]

/-- A number of the grammar is read in full, up to the delimiter. -/
theorem parseNumber_complete (n tail : List Char) (h : IsNumber n) (ht : Delimited tail) :
    ∃ x, parseNumber (n ++ tail) = some (.num x, tail) := by
  cases h with
  | positive int frac exp hi hf he =>
    obtain ⟨x, hx⟩ := parseUnsigned_complete false int frac exp tail hi hf he ht
    refine ⟨x, ?_⟩
    have hne : ∃ d ds, int = d :: ds := by
      cases hi with
      | zero => exact ⟨_, _, rfl⟩
      | nonzero d ds _ _ => exact ⟨_, _, rfl⟩
    obtain ⟨d, ds, hd⟩ := hne
    have hdm : d ≠ '-' := by
      intro hm
      subst hm
      subst hd
      cases hi with
      | nonzero _ _ hd2 _ => simp at hd2
    subst hd
    simp only [List.append_assoc, List.cons_append] at hx ⊢
    simp only [parseNumber, hdm, if_false]
    exact hx
  | negative int frac exp hi hf he =>
    obtain ⟨x, hx⟩ := parseUnsigned_complete true int frac exp tail hi hf he ht
    refine ⟨x, ?_⟩
    simp only [List.append_assoc, List.cons_append] at hx ⊢
    simp only [parseNumber, if_true]
    exact hx


theorem hexVal_of_IsHex {c : Char} (h : IsHex c) : ∃ x, hexVal c = some x := by
  simp only [IsHex, List.mem_cons, List.mem_singleton, List.not_mem_nil, or_false] at h
  apply Option.isSome_iff_exists.1
  rcases h with h | h | h | h | h | h | h | h | h | h | h | h | h | h | h | h | h | h | h | h |
    h | h <;> subst h <;> decide

theorem hex4_of_IsHex {h1 h2 h3 h4 : Char} (a : IsHex h1) (b : IsHex h2) (c : IsHex h3)
    (d : IsHex h4) : ∃ n, hex4 h1 h2 h3 h4 = some n := by
  obtain ⟨x, hx⟩ := hexVal_of_IsHex a
  obtain ⟨y, hy⟩ := hexVal_of_IsHex b
  obtain ⟨z, hz⟩ := hexVal_of_IsHex c
  obtain ⟨w, hw⟩ := hexVal_of_IsHex d
  exact ⟨((x * 16 + y) * 16 + z) * 16 + w, by simp [hex4, hx, hy, hz, hw]⟩

theorem unescape_of_mem {e : Char} (h : e ∈ "\"\\/bfnrt".data) :
    e ≠ 'u' ∧ ∃ ch, unescape e = some ch := by
  simp only [List.mem_cons, List.mem_singleton, List.not_mem_nil, or_false] at h
  rcases h with h | h | h | h | h | h | h | h <;> subst h <;>
    exact ⟨by decide, Option.isSome_iff_exists.1 (by decide)⟩

/-- The content of a string of the grammar is read up to its closing quote. -/
theorem parseUnits_complete (s tail : List Char) (h : IsChars s) :
    ∃ units, parseUnits (s ++ '\"' :: tail) = some (units, tail) := by
  induction h with
  | empty => exact ⟨[], parseUnits_quote tail⟩
  | plain c rest h1 h2 h3 _ ih =>
    obtain ⟨units, hu⟩ := ih
    refine ⟨c.toNat :: units, ?_⟩
    rw [List.cons_append, parseUnits_plain c _ h1 h2 (by omega), hu]
    rfl
  | escape e rest he _ ih =>
    obtain ⟨units, hu⟩ := ih
    obtain ⟨hne, ch, hch⟩ := unescape_of_mem he
    refine ⟨ch.toNat :: units, ?_⟩
    rw [List.cons_append, List.cons_append, parseUnits_escape e ch _ hne hch, hu]
    rfl
  | unicode h1 h2 h3 h4 rest a b c d _ ih =>
    obtain ⟨units, hu⟩ := ih
    obtain ⟨n, hn⟩ := hex4_of_IsHex a b c d
    refine ⟨n :: units, ?_⟩
    simp only [List.cons_append]
    rw [parseUnits_escapeU h1 h2 h3 h4 n _ hn, hu]
    rfl

theorem parseChars_complete (s tail : List Char) (h : IsChars s) :
    ∃ decoded, parseChars (s ++ '\"' :: tail) = some (decoded, tail) := by
  obtain ⟨units, hu⟩ := parseUnits_complete s tail h
  exact ⟨decodeUnits units, by simp [parseChars, hu]⟩

theorem skipWs_ws (c : Char) (rest : List Char) (h : isWs c = true) :
    skipWs (c :: rest) = skipWs rest := by
  simp [skipWs, h]

theorem skipWs_append_ws (w rest : List Char) (h : IsWs w) : skipWs (w ++ rest) = skipWs rest := by
  induction w with
  | nil => rfl
  | cons c w ih =>
    rw [List.cons_append, skipWs_ws c _ (h c (List.mem_cons_self _ _)),
      ih (fun d hd => h d (List.mem_cons_of_mem _ hd))]

theorem skipWs_of_not_ws_head (c : Char) (rest : List Char) (h : isWs c = false) :
    skipWs (c :: rest) = c :: rest := by
  simp [skipWs, h]

theorem skipWs_idem (cs : List Char) : skipWs (skipWs cs) = skipWs cs := by
  induction cs with
  | nil => rfl
  | cons c rest ih =>
    cases h : isWs c
    · rw [skipWs_of_not_ws_head c rest h, skipWs_of_not_ws_head c rest h]
    · rw [skipWs_ws c rest h, ih]

/-- The parser of values skips whitespace first. -/
theorem parseValue_skipWs (fuel : Nat) (cs : List Char) :
    parseValue fuel (skipWs cs) = parseValue fuel cs := by
  cases fuel with
  | zero => rw [parseValue.eq_def, parseValue.eq_def]
  | succ f =>
    rw [parseValue.eq_def, parseValue.eq_def (f + 1) cs]
    simp only [skipWs_idem]

theorem parseElements_skipWs (fuel : Nat) (cs : List Char) (acc : List JSVal) :
    parseElements fuel (skipWs cs) acc = parseElements fuel cs acc := by
  cases fuel with
  | zero => rw [parseElements.eq_def, parseElements.eq_def]
  | succ f =>
    rw [parseElements.eq_def, parseElements.eq_def (f + 1) cs]
    simp only [parseValue_skipWs]

theorem parseMembers_skipWs (fuel : Nat) (cs : List Char) (acc : List (String × JSVal)) :
    parseMembers fuel (skipWs cs) acc = parseMembers fuel cs acc := by
  cases fuel with
  | zero => rw [parseMembers.eq_def, parseMembers.eq_def]
  | succ f =>
    rw [parseMembers.eq_def, parseMembers.eq_def (f + 1) cs]
    simp only [skipWs_idem]


theorem delimited_ws (c : Char) (tail : List Char) (h : isWs c = true) : Delimited (c :: tail) :=
  Or.inl h

theorem number_head {n : List Char} (h : IsNumber n) :
    ∃ c r, n = c :: r ∧ (c = '-' ∨ IsDigit c) := by
  have hint : ∀ {i : List Char}, IsInt i → ∃ d ds, i = d :: ds ∧ IsDigit d := by
    intro i hi
    cases hi with
    | zero => exact ⟨_, _, rfl, by simp [IsDigit]⟩
    | nonzero d ds hd _ =>
      refine ⟨d, ds, rfl, ?_⟩
      simp only [List.mem_cons, List.mem_singleton, List.not_mem_nil, or_false] at hd
      rcases hd with h | h | h | h | h | h | h | h | h <;> subst h <;> simp [IsDigit]
  cases h with
  | positive int frac exp hi _ _ =>
    obtain ⟨d, ds, hd, hdig⟩ := hint hi
    subst hd
    exact ⟨d, _, rfl, Or.inr hdig⟩
  | negative int frac exp _ _ _ => exact ⟨'-', _, rfl, Or.inl rfl⟩

theorem number_head_facts {c : Char} (h : c = '-' ∨ IsDigit c) :
    isWs c = false ∧ c ≠ '\x7b' ∧ c ≠ '[' ∧ c ≠ '\"' ∧ c ≠ 't' ∧ c ≠ 'f' ∧ c ≠ 'n' ∧
      c ≠ ']' ∧ c ≠ '\x7d' := by
  rcases h with h | h
  · subst h
    decide
  · simp only [IsDigit, List.mem_cons, List.mem_singleton, List.not_mem_nil, or_false] at h
    rcases h with h | h | h | h | h | h | h | h | h | h <;> subst h <;> decide

theorem parses_string (s : List Char) (h : IsChars s) : Parses ('\"' :: (s ++ ['\"'])) := by
  constructor
  · intro tail _ fuel hf
    obtain ⟨f, rfl⟩ : ∃ f, fuel = f + 1 := ⟨fuel - 1, by omega⟩
    obtain ⟨decoded, hd⟩ := parseChars_complete s tail h
    refine ⟨.str (String.mk decoded), tail, ?_, rfl⟩
    have hs : skipWs ('\"' :: (s ++ ['\"']) ++ tail) = '\"' :: (s ++ '\"' :: tail) := by
      simp [skipWs, isWs]
    rw [parseValue.eq_def]
    simp only [hs]
    simp [hd]
  · intro tail
    exact ⟨'\"', s ++ '\"' :: tail, by simp [skipWs, isWs], by decide, by decide⟩

theorem parses_number (n : List Char) (h : IsNumber n) : Parses n := by
  obtain ⟨c, r, hn, hc⟩ := number_head h
  obtain ⟨h1, h2, h3, h4, h5, h6, h7, h8, h9⟩ := number_head_facts hc
  constructor
  · intro tail ht fuel hf
    obtain ⟨f, rfl⟩ : ∃ f, fuel = f + 1 := ⟨fuel - 1, by omega⟩
    obtain ⟨x, hx⟩ := parseNumber_complete n tail h ht
    refine ⟨.num x, tail, ?_, rfl⟩
    subst hn
    have hs : skipWs (c :: r ++ tail) = c :: (r ++ tail) := by
      simp [skipWs, h1]
    rw [parseValue.eq_def]
    simp only [hs]
    simp only [List.cons_append] at hx
    simp [h2, h3, h4, h5, h6, h7, hx]
  · intro tail
    subst hn
    exact ⟨c, r ++ tail, by simp [skipWs, h1], h8, h9⟩

theorem parses_litTrue : Parses ['t', 'r', 'u', 'e'] := by
  constructor
  · intro tail _ fuel hf
    obtain ⟨f, rfl⟩ : ∃ f, fuel = f + 1 := ⟨fuel - 1, by omega⟩
    refine ⟨.bool true, tail, ?_, rfl⟩
    rw [parseValue.eq_def]
    simp [skipWs, isWs, dropLit]
  · intro tail
    exact ⟨'t', 'r' :: 'u' :: 'e' :: tail, by simp [skipWs, isWs], by decide, by decide⟩

theorem parses_litFalse : Parses ['f', 'a', 'l', 's', 'e'] := by
  constructor
  · intro tail _ fuel hf
    obtain ⟨f, rfl⟩ : ∃ f, fuel = f + 1 := ⟨fuel - 1, by omega⟩
    refine ⟨.bool false, tail, ?_, rfl⟩
    rw [parseValue.eq_def]
    simp [skipWs, isWs, dropLit]
  · intro tail
    exact ⟨'f', 'a' :: 'l' :: 's' :: 'e' :: tail, by simp [skipWs, isWs], by decide, by decide⟩

theorem parses_litNull : Parses ['n', 'u', 'l', 'l'] := by
  constructor
  · intro tail _ fuel hf
    obtain ⟨f, rfl⟩ : ∃ f, fuel = f + 1 := ⟨fuel - 1, by omega⟩
    refine ⟨.null, tail, ?_, rfl⟩
    rw [parseValue.eq_def]
    simp [skipWs, isWs, dropLit]
  · intro tail
    exact ⟨'n', 'u' :: 'l' :: 'l' :: tail, by simp [skipWs, isWs], by decide, by decide⟩

theorem parses_wsBefore (c : Char) (cs : List Char) (hc : isWs c = true) (h : Parses cs) :
    Parses (c :: cs) := by
  constructor
  · intro tail ht fuel hf
    have hf2 : cs.length < fuel := by
      simp only [List.length_cons] at hf
      omega
    obtain ⟨v, rest, hv, hr⟩ := h.1 tail ht fuel hf2
    refine ⟨v, rest, ?_, hr⟩
    rw [← parseValue_skipWs, List.cons_append, skipWs_ws c _ hc, parseValue_skipWs]
    exact hv
  · intro tail
    obtain ⟨d, r, hd, h1, h2⟩ := h.2 tail
    exact ⟨d, r, by rw [List.cons_append, skipWs_ws c _ hc]; exact hd, h1, h2⟩

theorem parses_wsAfter (cs : List Char) (c : Char) (hc : isWs c = true) (h : Parses cs) :
    Parses (cs ++ [c]) := by
  constructor
  · intro tail _ fuel hf
    have hf2 : cs.length < fuel := by
      simp only [List.length_append, List.length_singleton] at hf
      omega
    obtain ⟨v, rest, hv, hr⟩ := h.1 (c :: tail) (delimited_ws c tail hc) fuel hf2
    refine ⟨v, rest, ?_, ?_⟩
    · rw [List.append_assoc]
      exact hv
    · rw [hr, skipWs_ws c tail hc]
  · intro tail
    obtain ⟨d, r, hd, h1, h2⟩ := h.2 (c :: tail)
    exact ⟨d, r, by rw [List.append_assoc]; exact hd, h1, h2⟩

theorem parses_emptyArray (w : List Char) (h : IsWs w) : Parses ('[' :: (w ++ [']'])) := by
  constructor
  · intro tail _ fuel hf
    obtain ⟨f, rfl⟩ : ∃ f, fuel = f + 1 := ⟨fuel - 1, by omega⟩
    refine ⟨.arr [], tail, ?_, rfl⟩
    have hs : skipWs ('[' :: (w ++ [']']) ++ tail) = '[' :: (w ++ ']' :: tail) := by
      simp [skipWs, isWs]
    have hw : skipWs (w ++ ']' :: tail) = ']' :: tail := by
      rw [skipWs_append_ws w _ h]
      simp [skipWs, isWs]
    rw [parseValue.eq_def]
    simp only [hs]
    simp [hw]
  · intro tail
    exact ⟨'[', w ++ ']' :: tail, by simp [skipWs, isWs], by decide, by decide⟩

theorem parses_emptyObject (w : List Char) (h : IsWs w) :
    Parses ('\x7b' :: (w ++ ['\x7d'])) := by
  constructor
  · intro tail _ fuel hf
    obtain ⟨f, rfl⟩ : ∃ f, fuel = f + 1 := ⟨fuel - 1, by omega⟩
    refine ⟨.obj [], tail, ?_, rfl⟩
    have hs : skipWs ('\x7b' :: (w ++ ['\x7d']) ++ tail) = '\x7b' :: (w ++ '\x7d' :: tail) := by
      simp [skipWs, isWs]
    have hw : skipWs (w ++ '\x7d' :: tail) = '\x7d' :: tail := by
      rw [skipWs_append_ws w _ h]
      simp [skipWs, isWs]
    rw [parseValue.eq_def]
    simp only [hs]
    simp [hw]
  · intro tail
    exact ⟨'\x7b', w ++ '\x7d' :: tail, by simp [skipWs, isWs], by decide, by decide⟩


theorem delimited_comma (tail : List Char) : Delimited (',' :: tail) :=
  Or.inr (Or.inl rfl)

theorem delimited_bracket (tail : List Char) : Delimited (']' :: tail) :=
  Or.inr (Or.inr (Or.inl rfl))

theorem delimited_brace (tail : List Char) : Delimited ('\x7d' :: tail) :=
  Or.inr (Or.inr (Or.inr rfl))

/-- The elements of an array are read up to its closing bracket. -/
theorem parseElements_complete (elements : List (List Char)) (hne : elements ≠ [])
    (hall : ∀ e ∈ elements, Parses e) :
    ∀ (tail : List Char) (acc : List JSVal) (fuel : Nat),
      (joinComma elements).length + 1 < fuel →
      ∃ vs, parseElements fuel (joinComma elements ++ ']' :: tail) acc =
        some (.arr (acc ++ vs), tail) := by
  induction elements with
  | nil => exact absurd rfl hne
  | cons e rest ih =>
    intro tail acc fuel hf
    obtain ⟨f, rfl⟩ : ∃ f, fuel = f + 1 := ⟨fuel - 1, by omega⟩
    have he := hall e (List.mem_cons_self _ _)
    cases rest with
    | nil =>
      simp only [joinComma] at hf ⊢
      obtain ⟨v, r, hv, hr⟩ := he.1 (']' :: tail) (delimited_bracket tail) f (by omega)
      have hr2 : skipWs r = ']' :: tail := by
        rw [hr]
        simp [skipWs, isWs]
      refine ⟨[v], ?_⟩
      rw [parseElements.eq_def]
      simp only [hv, hr2]
      simp
    | cons e2 rest2 =>
      have hj : joinComma (e :: e2 :: rest2) = e ++ ',' :: joinComma (e2 :: rest2) := rfl
      rw [hj] at hf ⊢
      simp only [List.length_append, List.length_cons] at hf
      obtain ⟨v, r, hv, hr⟩ := he.1 (',' :: (joinComma (e2 :: rest2) ++ ']' :: tail))
        (delimited_comma _) f (by omega)
      have hr2 : skipWs r = ',' :: (joinComma (e2 :: rest2) ++ ']' :: tail) := by
        rw [hr]
        simp [skipWs, isWs]
      obtain ⟨vs, hvs⟩ := ih (by simp) (fun x hx => hall x (List.mem_cons_of_mem _ hx)) tail
        (acc ++ [v]) f (by omega)
      refine ⟨v :: vs, ?_⟩
      rw [parseElements.eq_def]
      have hcat : e ++ ',' :: joinComma (e2 :: rest2) ++ ']' :: tail =
          e ++ ',' :: (joinComma (e2 :: rest2) ++ ']' :: tail) := by simp
      simp only [hcat, hv, hr2]
      simp [hvs]

theorem joinComma_head (e : List Char) (rest : List (List Char)) :
    ∃ more, joinComma (e :: rest) = e ++ more := by
  cases rest with
  | nil => exact ⟨[], by simp [joinComma]⟩
  | cons e2 rest2 => exact ⟨',' :: joinComma (e2 :: rest2), rfl⟩

theorem parses_array (elements : List (List Char)) (hne : elements ≠ [])
    (hall : ∀ e ∈ elements, Parses e) : Parses ('[' :: (joinComma elements ++ [']'])) := by
  constructor
  · intro tail _ fuel hf
    obtain ⟨f, rfl⟩ : ∃ f, fuel = f + 1 := ⟨fuel - 1, by omega⟩
    simp only [List.length_cons, List.length_append, List.length_singleton] at hf
    obtain ⟨e, rest, hel⟩ := List.exists_cons_of_ne_nil hne
    obtain ⟨more, hmore⟩ := joinComma_head e rest
    obtain ⟨d, r, hd, hd1, _⟩ := (hall e (by rw [hel]; exact List.mem_cons_self _ _)).2
      (more ++ ']' :: tail)
    have hd' : skipWs (joinComma elements ++ ']' :: tail) = d :: r := by
      rw [hel, hmore, List.append_assoc]
      exact hd
    obtain ⟨vs, hvs⟩ := parseElements_complete elements hne hall tail [] f (by omega)
    refine ⟨.arr ([] ++ vs), tail, ?_, rfl⟩
    have hs : skipWs ('[' :: (joinComma elements ++ [']']) ++ tail) =
        '[' :: (joinComma elements ++ ']' :: tail) := by
      simp [skipWs, isWs]
    rw [parseValue.eq_def]
    simp only [hs, hd']
    rw [← hd', parseElements_skipWs, hvs]
    simp [hd1]
  · intro tail
    exact ⟨'[', joinComma elements ++ ']' :: tail, by simp [skipWs, isWs], by decide,
      by decide⟩


/-- One member is read: its key, the colon and its element. -/
theorem parseMembers_step (f : Nat) (key el after : List Char) (acc : List (String × JSVal))
    (hk : IsKey key) (he : Parses el) (ha : Delimited after) (hf : el.length < f) :
    ∃ k v, ∀ e rest, skipWs after = e :: rest →
      parseMembers (f + 1) (key ++ ':' :: (el ++ after)) acc =
        if e = ',' then parseMembers f rest (JSVal.setProp k v acc)
        else if e = '\x7d' then some (.obj (JSVal.setProp k v acc), rest)
        else none := by
  cases hk with
  | mk before s w hb hs hw =>
    obtain ⟨decoded, hd⟩ := parseChars_complete s (w ++ ':' :: (el ++ after)) hs
    obtain ⟨v, r, hv, hr⟩ := he.1 after ha f hf
    refine ⟨String.mk decoded, v, ?_⟩
    intro e rest hskip
    have h1 : skipWs (before ++ '\"' :: (s ++ '\"' :: w) ++ ':' :: (el ++ after)) =
        '\"' :: (s ++ '\"' :: (w ++ ':' :: (el ++ after))) := by
      rw [List.append_assoc, skipWs_append_ws before _ hb]
      simp [skipWs, isWs]
    have h2 : skipWs (w ++ ':' :: (el ++ after)) = ':' :: (el ++ after) := by
      rw [skipWs_append_ws w _ hw]
      simp [skipWs, isWs]
    rw [parseMembers.eq_def]
    simp only [h1]
    simp only [hd, h2, hv, hr, hskip]
    simp

/-- The members of an object are read up to its closing brace. -/
theorem parseMembers_complete (members : List (List Char × List Char)) (hne : members ≠ [])
    (hkeys : ∀ m ∈ members, IsKey m.1) (hall : ∀ m ∈ members, Parses m.2) :
    ∀ (tail : List Char) (acc : List (String × JSVal)) (fuel : Nat),
      (joinComma (members.map (fun m => m.1 ++ ':' :: m.2))).length + 1 < fuel →
      ∃ props, parseMembers fuel
        (joinComma (members.map (fun m => m.1 ++ ':' :: m.2)) ++ '\x7d' :: tail) acc =
        some (.obj props, tail) := by
  induction members with
  | nil => exact absurd rfl hne
  | cons m rest ih =>
    intro tail acc fuel hf
    obtain ⟨f, rfl⟩ : ∃ f, fuel = f + 1 := ⟨fuel - 1, by omega⟩
    have hk := hkeys m (List.mem_cons_self _ _)
    have he := hall m (List.mem_cons_self _ _)
    cases rest with
    | nil =>
      simp only [List.map_cons, List.map_nil, joinComma, List.length_append,
        List.length_cons] at hf ⊢
      obtain ⟨k, v, hstep⟩ := parseMembers_step f m.1 m.2 ('\x7d' :: tail) acc hk he
        (delimited_brace tail) (by omega)
      refine ⟨JSVal.setProp k v acc, ?_⟩
      have hcat : m.1 ++ ':' :: m.2 ++ '\x7d' :: tail = m.1 ++ ':' :: (m.2 ++ '\x7d' :: tail) := by
        simp
      rw [hcat, hstep '\x7d' tail (by simp [skipWs, isWs])]
      simp
    | cons m2 rest2 =>
      have hj : joinComma ((m :: m2 :: rest2).map (fun m => m.1 ++ ':' :: m.2)) =
          (m.1 ++ ':' :: m.2) ++
            ',' :: joinComma ((m2 :: rest2).map (fun m => m.1 ++ ':' :: m.2)) := rfl
      rw [hj] at hf ⊢
      simp only [List.length_append, List.length_cons] at hf
      obtain ⟨k, v, hstep⟩ := parseMembers_step f m.1 m.2
        (',' :: (joinComma ((m2 :: rest2).map (fun m => m.1 ++ ':' :: m.2)) ++ '\x7d' :: tail))
        acc hk he (delimited_comma _) (by omega)
      obtain ⟨props, hprops⟩ := ih (by simp)
        (fun x hx => hkeys x (List.mem_cons_of_mem _ hx))
        (fun x hx => hall x (List.mem_cons_of_mem _ hx)) tail (JSVal.setProp k v acc) f
        (by omega)
      refine ⟨props, ?_⟩
      have hcat : m.1 ++ ':' :: m.2 ++
            ',' :: joinComma ((m2 :: rest2).map (fun m => m.1 ++ ':' :: m.2)) ++ '\x7d' :: tail =
          m.1 ++ ':' :: (m.2 ++ ',' ::
            (joinComma ((m2 :: rest2).map (fun m => m.1 ++ ':' :: m.2)) ++ '\x7d' :: tail)) := by
        simp
      rw [hcat, hstep ','
        (joinComma ((m2 :: rest2).map (fun m => m.1 ++ ':' :: m.2)) ++ '\x7d' :: tail)
        (by simp [skipWs, isWs])]
      simp only [if_true]
      exact hprops

theorem key_head (key tail : List Char) (h : IsKey key) :
    ∃ r, skipWs (key ++ tail) = '\"' :: r := by
  cases h with
  | mk before s w hb _ _ =>
    refine ⟨s ++ '\"' :: w ++ tail, ?_⟩
    rw [List.append_assoc, skipWs_append_ws before _ hb]
    simp [skipWs, isWs]

theorem parses_object (members : List (List Char × List Char)) (hne : members ≠ [])
    (hkeys : ∀ m ∈ members, IsKey m.1) (hall : ∀ m ∈ members, Parses m.2) :
    Parses ('\x7b' :: (joinComma (members.map (fun m => m.1 ++ ':' :: m.2)) ++ ['\x7d'])) := by
  constructor
  · intro tail _ fuel hf
    obtain ⟨f, rfl⟩ : ∃ f, fuel = f + 1 := ⟨fuel - 1, by omega⟩
    simp only [List.length_cons, List.length_append, List.length_singleton] at hf
    obtain ⟨m, rest, hel⟩ := List.exists_cons_of_ne_nil hne
    obtain ⟨more, hmore⟩ := joinComma_head (m.1 ++ ':' :: m.2)
      (rest.map (fun m => m.1 ++ ':' :: m.2))
    obtain ⟨r, hr⟩ := key_head m.1 (':' :: m.2 ++ more ++ '\x7d' :: tail)
      (hkeys m (by rw [hel]; exact List.mem_cons_self _ _))
    have hd' : skipWs (joinComma (members.map (fun m => m.1 ++ ':' :: m.2)) ++ '\x7d' :: tail) =
        '\"' :: r := by
      rw [hel, List.map_cons, hmore]
      simpa using hr
    obtain ⟨props, hprops⟩ := parseMembers_complete members hne hkeys hall tail [] f (by omega)
    refine ⟨.obj props, tail, ?_, rfl⟩
    have hs : skipWs ('\x7b' :: (joinComma (members.map (fun m => m.1 ++ ':' :: m.2)) ++
          ['\x7d']) ++ tail) =
        '\x7b' :: (joinComma (members.map (fun m => m.1 ++ ':' :: m.2)) ++ '\x7d' :: tail) := by
      simp [skipWs, isWs]
    rw [parseValue.eq_def]
    simp only [hs, hd']
    rw [← hd', parseMembers_skipWs, hprops]
    simp
  · intro tail
    exact ⟨'\x7b', joinComma (members.map (fun m => m.1 ++ ':' :: m.2)) ++ '\x7d' :: tail,
      by simp [skipWs, isWs], by decide, by decide⟩

/-- The parser reads every element of the grammar. -/
theorem parses_of_isElement (cs : List Char) (h : IsElement cs) : Parses cs := by
  induction h with
  | wsBefore c cs hc _ ih => exact parses_wsBefore c cs hc ih
  | wsAfter cs c hc _ ih => exact parses_wsAfter cs c hc ih
  | string s hs => exact parses_string s hs
  | number n hn => exact parses_number n hn
  | litTrue => exact parses_litTrue
  | litFalse => exact parses_litFalse
  | litNull => exact parses_litNull
  | emptyArray w hw => exact parses_emptyArray w hw
  | array elements hne _ ih => exact parses_array elements hne ih
  | emptyObject w hw => exact parses_emptyObject w hw
  | object members hne hkeys _ ih => exact parses_object members hne hkeys ih

/-- Characters that stand for themselves make up a string content. -/
theorem isChars_of_plain (s : List Char)
    (h : ∀ c ∈ s, c ≠ '\"' ∧ c ≠ '\\' ∧ 32 ≤ c.toNat) : IsChars s := by
  induction s with
  | nil => exact IsChars.empty
  | cons c rest ih =>
    obtain ⟨h1, h2, h3⟩ := h c (List.mem_cons_self _ _)
    exact IsChars.plain c rest h1 h2 h3 (ih (fun d hd => h d (List.mem_cons_of_mem _ hd)))

/-- The text `1.5` is a JSON text. -/
theorem isText_fraction : IsText "1.5" :=
  IsElement.number _
    (IsNumber.positive ['1'] ['.', '5'] [] (IsInt.nonzero '1' [] (by decide) (by simp))
      (IsFrac.present ['5'] ⟨by simp, by simp [IsDigit]⟩) IsExp.absent)

/-- A record with a username and a fractional score is a JSON text. -/
theorem isText_record : IsText "\x7b\"username\":\"alice\",\"score\":0.5\x7d" :=
  IsElement.object
    [("\"username\"".data, "\"alice\"".data), ("\"score\"".data, "0.5".data)]
    (by simp)
    (by
      intro m hm
      simp only [List.mem_cons, List.mem_singleton, List.not_mem_nil, or_false] at hm
      rcases hm with hm | hm <;> subst hm
      · exact IsKey.mk [] "username".data [] (by simp [IsWs])
          (isChars_of_plain _ (by decide)) (by simp [IsWs])
      · exact IsKey.mk [] "score".data [] (by simp [IsWs])
          (isChars_of_plain _ (by decide)) (by simp [IsWs]))
    (by
      intro m hm
      simp only [List.mem_cons, List.mem_singleton, List.not_mem_nil, or_false] at hm
      rcases hm with hm | hm <;> subst hm
      · exact IsElement.string "alice".data (isChars_of_plain _ (by decide))
      · exact IsElement.number _
          (IsNumber.positive ['0'] ['.', '5'] [] IsInt.zero
            (IsFrac.present ['5'] ⟨by simp, by simp [IsDigit]⟩) IsExp.absent))

/-- `JSON.parse` gives a value for every well-formed JSON text. -/
theorem parse_of_isText (text : String) (h : IsText text) : ∃ v, parse text = .ok v := by
  obtain ⟨v, rest, hv, hr⟩ := (parses_of_isElement text.data h).1 [] trivial
    (text.data.length + 1) (Nat.lt_succ_self _)
  refine ⟨v, ?_⟩
  rw [List.append_nil] at hv
  have hr2 : skipWs rest = [] := hr
  unfold parse
  rw [hv]
  simp [hr2]

end JSON

/-! ## Lemmas on the session invariant -/

theorem AuthState.Paired.present_iff {s : AuthState} (h : s.Paired) :
    s.tokenPresent = true ↔ s.userPresent = true := by
  rcases h with ⟨ht, hu⟩ | ⟨t, u, hne, ht, hu⟩
  · simp [AuthState.tokenPresent, AuthState.userPresent, ht, hu, JSVal.isNullish]
  · simp [AuthState.tokenPresent, AuthState.userPresent, ht, hu, JSVal.isNullish, hne]

theorem JSVal.eq_str_of_isNonEmptyStr {v : JSVal} (h : v.isNonEmptyStr = true) :
    ∃ t, t ≠ "" ∧ v = .str t := by
  cases v <;> simp [JSVal.isNonEmptyStr] at h
  exact ⟨_, h, rfl⟩

theorem JSVal.eq_str_of_isStr {v : JSVal} (h : v.isStr = true) : ∃ t, v = .str t := by
  cases v <;> simp [JSVal.isStr] at h
  exact ⟨_, rfl⟩

/-- An admissible call keeps token and user paired. -/
theorem System.step_paired (sys : System) (c : Call) (hp : sys.auth.Paired)
    (ha : System.admissible payloadHasToken sys c = true) : (sys.step c).auth.Paired := by
  cases c with
  | logout => exact Or.inl ⟨rfl, rfl⟩
  | login username password transport =>
    simp only [System.step]
    cases h : transport (loginRequest sys.browser username password) with
    | rejected error =>
      cases hn : error.isNullish
      · rw [useAuthStore.login_of_rejected h hn]
        exact hp
      · rw [useAuthStore.login_of_rejected_nullish h hn]
        exact hp
    | fulfilled response =>
      cases hd : (response.getOpt "data").isNullish
      · have hl := useAuthStore.login_of_fulfilled_data (s := sys.auth) h hd
        simp only [System.admissible, hl, h, loginSucceeded] at ha
        have hok : payloadHasToken response = true := by
          simpa [JSVal.getOpt, JSVal.lookup] using ha
        simp only [payloadHasToken, Bool.and_eq_true] at hok
        obtain ⟨t, hne, ht⟩ := JSVal.eq_str_of_isNonEmptyStr hok.1
        obtain ⟨u, hu⟩ := JSVal.eq_str_of_isStr hok.2
        rw [hl]
        exact Or.inr ⟨t, u, hne, ht, by simp only [hu]⟩
      · rw [useAuthStore.login_of_fulfilled_no_data h (Or.inr hd)]
        exact hp

/-- An admissible sequence of calls keeps token and user paired. -/
theorem System.run_paired (calls : List Call) (sys : System) (hp : sys.auth.Paired)
    (ha : System.admissibleRun payloadHasToken sys calls = true) :
    (sys.run calls).auth.Paired := by
  induction calls generalizing sys with
  | nil => exact hp
  | cons c rest ih =>
    simp only [System.admissibleRun, Bool.and_eq_true] at ha
    exact ih (sys.step c) (System.step_paired sys c hp ha.1) ha.2

/-- The store created on an empty persistent store has no token and no user. -/
theorem useAuthStore.state_cold :
    useAuthStore.state { storage := [], effects := [] } = .ok { token := .null, user := .null } := by
  rfl

/-! ## Lemmas on the store's initial state and on what the calls leave alone -/

namespace useAuthStore

/-- The initial state when the `user` entry is absent or empty. -/
theorem state_of_no_user {b : Browser}
    (h : Storage.get "user" b.storage = none ∨ Storage.get "user" b.storage = some "") :
    state b = .ok { token := (localStorage.getItem b "token").or .null, user := .null } := by
  have hu : ((localStorage.getItem b "user").or (.str "null")).toStr = "null" := by
    rcases h with h | h <;> simp [localStorage.getItem, h, JSVal.or, JSVal.truthy, JSVal.toStr]
  unfold state
  rw [hu]
  rfl

/-- The initial state when the `user` entry is a JSON text. -/
theorem state_of_user {b : Browser} {text : String} {v : JSVal}
    (h : Storage.get "user" b.storage = some text) (hp : JSON.parse text = .ok v) :
    state b = .ok { token := (localStorage.getItem b "token").or .null, user := v } := by
  have hne : text ≠ "" := by
    intro he
    subst he
    exact absurd hp (by simp [JSON.parse, JSON.parseValue, JSON.skipWs])
  have hu : ((localStorage.getItem b "user").or (.str "null")).toStr = text := by
    simp [localStorage.getItem, h, JSVal.or, JSVal.truthy, hne, JSVal.toStr]
  unfold state
  rw [hu, hp]

/-- The initial state when the `user` entry is not a JSON text. -/
theorem state_of_malformed_user {b : Browser} {text : String} {thrown : JSVal}
    (h : Storage.get "user" b.storage = some text) (hne : text ≠ "")
    (hp : JSON.parse text = .error thrown) : state b = .error thrown := by
  have hu : ((localStorage.getItem b "user").or (.str "null")).toStr = text := by
    simp [localStorage.getItem, h, JSVal.or, JSVal.truthy, hne, JSVal.toStr]
  unfold state
  rw [hu, hp]

end useAuthStore

namespace api.interceptors.response

/-- The failure handler leaves every entry other than `token` and `user` as it
was. -/
theorem rejected_storage_frame (b : Browser) (error : JSVal) {key : String}
    (h1 : key ≠ "token") (h2 : key ≠ "user") :
    Storage.get key (rejected b error).1.storage = Storage.get key b.storage := by
  by_cases h : (error.getOpt "response").getOpt "status" = .num 401
  · rw [rejected_browser_of_unauthorized b error h]
    show Storage.get key (Storage.remove "user" (Storage.remove "token" b.storage)) = _
    rw [Storage.get_remove_ne h2, Storage.get_remove_ne h1]
  · rw [rejected_browser_of_other b error h]

end api.interceptors.response

/-! ## Lemmas on coherence -/

namespace System

/-- The store created on a persistent store this core wrote agrees with it. -/
theorem coherent_of_state {b : Browser} {s : AuthState} (hw : b.WrittenByCore)
    (hs : useAuthStore.state b = .ok s) :
    TokenCoherent { auth := s, browser := b } ∧ UserCoherent { auth := s, browser := b } := by
  rcases hw with ⟨ht, hu⟩ | ⟨t, u, text, hne, ht, hj, hu⟩
  · rw [useAuthStore.state_of_no_user (Or.inl hu)] at hs
    injection hs with hs
    subst hs
    constructor
    · simp [TokenCoherent, ht, localStorage.getItem, JSVal.or, JSVal.truthy]
    · simp [UserCoherent, hu]
  · obtain ⟨text2, hs2, hp⟩ := JSON.parse_stringify_member "username" u
    rw [hj] at hs2
    injection hs2 with hs2
    subst hs2
    rw [useAuthStore.state_of_user hu hp] at hs
    injection hs with hs
    subst hs
    constructor
    · simp [TokenCoherent, ht, localStorage.getItem, JSVal.or, JSVal.truthy, hne]
    · simp only [UserCoherent, hu]
      exact ⟨⟨u, rfl⟩, hp⟩

/-- A call that is admissible and is not a login answered with a 401 keeps the
store and the persistent store in agreement. -/
theorem step_coherent (sys : System) (c : Call)
    (hc : TokenCoherent sys ∧ UserCoherent sys)
    (ha : admissible payloadHasToken sys c = true) (hq : notUnauthorized sys c = true) :
    TokenCoherent (sys.step c) ∧ UserCoherent (sys.step c) := by
  cases c with
  | logout =>
    constructor
    · have h : Storage.get "token"
          (Storage.remove "user" (Storage.remove "token" sys.browser.storage)) = none := by
        rw [Storage.get_remove_ne (by decide), Storage.get_remove_self]
      simp [TokenCoherent, step, useAuthStore.logout, localStorage.removeItem, h]
    · have h : Storage.get "user"
          (Storage.remove "user" (Storage.remove "token" sys.browser.storage)) = none :=
        Storage.get_remove_self _ _
      simp [UserCoherent, step, useAuthStore.logout, localStorage.removeItem, h]
  | login username password transport =>
    cases h : transport (loginRequest sys.browser username password) with
    | rejected error =>
      cases hn : error.isNullish
      · have h401 : (error.getOpt "response").getOpt "status" ≠ .num 401 := by
          intro he
          simp [notUnauthorized, h, (JSVal.strictEqNum_iff _).2 he] at hq
        have hl := useAuthStore.login_of_rejected (s := sys.auth) h hn
        rw [api.interceptors.response.rejected_browser_of_other _ _ h401] at hl
        simp only [step, hl]
        exact hc
      · simp only [step, useAuthStore.login_of_rejected_nullish h hn]
        exact hc
    | fulfilled response =>
      cases hd : (response.getOpt "data").isNullish
      · have hl := useAuthStore.login_of_fulfilled_data (s := sys.auth) h hd
        simp only [admissible, hl, h, loginSucceeded] at ha
        have hok : payloadHasToken response = true := by
          simpa [JSVal.getOpt, JSVal.lookup] using ha
        simp only [payloadHasToken, Bool.and_eq_true] at hok
        obtain ⟨t, hne, ht⟩ := JSVal.eq_str_of_isNonEmptyStr hok.1
        obtain ⟨u, hu⟩ := JSVal.eq_str_of_isStr hok.2
        obtain ⟨text, hs, hp⟩ := JSON.parse_stringify_member "username" u
        simp only [step, hl, ht, hu, hs]
        constructor
        · have hg : Storage.get "token"
              (Storage.set "user" text (Storage.set "token" t sys.browser.storage)) = some t := by
            rw [Storage.get_set_ne (by decide), Storage.get_set_self]
          simp only [TokenCoherent, localStorage.setItem, JSVal.toStr, hg]
          exact ⟨hne, trivial⟩
        · have hg : Storage.get "user"
              (Storage.set "user" text (Storage.set "token" t sys.browser.storage)) =
              some text := Storage.get_set_self _ _ _
          simp only [UserCoherent, localStorage.setItem, JSVal.toStr, hg]
          exact ⟨⟨u, rfl⟩, hp⟩
      · simp only [step, useAuthStore.login_of_fulfilled_no_data h (Or.inr hd)]
        exact hc

/-- A sequence of such calls keeps the store and the persistent store in
agreement. -/
theorem run_coherent (calls : List Call) (sys : System)
    (hc : TokenCoherent sys ∧ UserCoherent sys) (hq : quietRun sys calls = true) :
    TokenCoherent (sys.run calls) ∧ UserCoherent (sys.run calls) := by
  induction calls generalizing sys with
  | nil => exact hc
  | cons c rest ih =>
    simp only [quietRun, Bool.and_eq_true] at hq
    exact ih (sys.step c) (step_coherent sys c hc hq.1.1 hq.1.2) hq.2

/-- What agreement on the token says in terms of presence. -/
theorem TokenCoherent.token_agrees {sys : System} (h : TokenCoherent sys) :
    ((Storage.get "token" sys.browser.storage).isSome = true ↔
        sys.auth.tokenPresent = true) ∧
      ∀ t, Storage.get "token" sys.browser.storage = some t → sys.auth.token = .str t := by
  unfold TokenCoherent at h
  cases hg : Storage.get "token" sys.browser.storage with
  | none =>
    rw [hg] at h
    simp [AuthState.tokenPresent, h]
  | some t =>
    rw [hg] at h
    simp [AuthState.tokenPresent, h.2, h.1]

/-- What agreement on the user says in terms of presence. -/
theorem UserCoherent.user_agrees {sys : System} (h : UserCoherent sys) :
    ((Storage.get "user" sys.browser.storage).isSome = true ↔
        sys.auth.userPresent = true) ∧
      ∀ text, Storage.get "user" sys.browser.storage = some text →
        JSON.parse text = .ok sys.auth.user := by
  unfold UserCoherent at h
  cases hg : Storage.get "user" sys.browser.storage with
  | none =>
    rw [hg] at h
    simp [AuthState.userPresent, h, JSVal.isNullish]
  | some text =>
    rw [hg] at h
    obtain ⟨⟨u, hu⟩, hp⟩ := h
    refine ⟨?_, ?_⟩
    · simp [AuthState.userPresent, hu, JSVal.isNullish]
    · intro text2 he
      injection he with he
      subst he
      exact hp

end System

/-! ## The claims -/

/-- C1, as stated, fails: from a cold start, one login answered with the
payload `accessToken = ""`, `username = "alice"` (two strings) succeeds and
leaves a user without a token. -/
theorem empty_token_login_breaks_pairing :
    useAuthStore.state Fixture.coldBrowser = .ok { token := .null, user := .null } ∧
      System.admissibleRun payloadHasStrings
        { auth := { token := .null, user := .null }, browser := Fixture.coldBrowser }
        [Call.login (.str "alice") (.str "secret")
          (Fixture.answering (Fixture.loginPayload "" "alice"))] = true ∧
      (System.run { auth := { token := .null, user := .null }, browser := Fixture.coldBrowser }
        [Call.login (.str "alice") (.str "secret")
          (Fixture.answering (Fixture.loginPayload "" "alice"))]).auth.tokenPresent = false ∧
      (System.run { auth := { token := .null, user := .null }, browser := Fixture.coldBrowser }
        [Call.login (.str "alice") (.str "secret")
          (Fixture.answering (Fixture.loginPayload "" "alice"))]).auth.userPresent = true := by
  refine ⟨rfl, rfl, rfl, rfl⟩

/-- C1, amended: from a store created on an empty persistent store, after any
finite sequence of `login` and `logout` calls in which each login either
fails or is answered with a payload that holds a non-empty `accessToken`
string and a `username` string, the store's token is present if and only if
its user is present. -/
theorem token_present_iff_user_present (s0 : AuthState) (calls : List Call)
    (hinit : useAuthStore.state { storage := [], effects := [] } = .ok s0)
    (hadm : System.admissibleRun payloadHasToken
      { auth := s0, browser := { storage := [], effects := [] } } calls = true) :
    (System.run { auth := s0, browser := { storage := [], effects := [] } }
        calls).auth.tokenPresent = true ↔
      (System.run { auth := s0, browser := { storage := [], effects := [] } }
        calls).auth.userPresent = true := by
  have hs : s0 = { token := .null, user := .null } := by
    rw [useAuthStore.state_cold] at hinit
    injection hinit with hinit
    exact hinit.symm
  have hp : s0.Paired := by
    subst hs
    exact Or.inl ⟨rfl, rfl⟩
  exact (System.run_paired calls _ hp hadm).present_iff

/-- C1 amended, at a concrete input: a failed login, a successful one, a
logout and another successful login. -/
theorem token_present_iff_user_present_witness :
    (System.run { auth := { token := .null, user := .null }, browser := Fixture.coldBrowser }
        [Call.login (.str "alice") (.str "wrong") (Fixture.failing (Fixture.httpError 401 .null)),
          Call.login (.str "alice") (.str "secret")
            (Fixture.answering (Fixture.loginPayload "tok1" "alice")),
          Call.logout,
          Call.login (.str "bob") (.str "secret")
            (Fixture.answering (Fixture.loginPayload "tok2" "bob"))]).auth.tokenPresent = true ↔
      (System.run { auth := { token := .null, user := .null }, browser := Fixture.coldBrowser }
        [Call.login (.str "alice") (.str "wrong") (Fixture.failing (Fixture.httpError 401 .null)),
          Call.login (.str "alice") (.str "secret")
            (Fixture.answering (Fixture.loginPayload "tok1" "alice")),
          Call.logout,
          Call.login (.str "bob") (.str "secret")
            (Fixture.answering (Fixture.loginPayload "tok2" "bob"))]).auth.userPresent = true :=
  token_present_iff_user_present { token := .null, user := .null } _ rfl rfl

/-- C2. Unauthorized escalation: when the error given to the response
interceptor's failure handler carries a response whose status is 401, the
handler calls `localStorage.removeItem` once for `token`, once for `user`,
and navigates once to `/login`, whatever else the error holds; on any other
status, or without a response, the browser is left as it was. -/
theorem response_rejected_escalates_exactly_on_401 (b : Browser) (error : JSVal) :
    ((error.getOpt "response").getOpt "status" = .num 401 →
      (api.interceptors.response.rejected b error).1.storage =
          Storage.remove "user" (Storage.remove "token" b.storage) ∧
        (api.interceptors.response.rejected b error).1.effects =
          b.effects ++
            [Effect.removeItem "token", Effect.removeItem "user", Effect.navigate "/login"] ∧
        localStorage.getItem (api.interceptors.response.rejected b error).1 "token" = .null ∧
        localStorage.getItem (api.interceptors.response.rejected b error).1 "user" = .null) ∧
    ((error.getOpt "response").getOpt "status" ≠ .num 401 →
      (api.interceptors.response.rejected b error).1 = b) := by
  refine ⟨fun h => ?_, fun h => api.interceptors.response.rejected_browser_of_other b error h⟩
  rw [api.interceptors.response.rejected_browser_of_unauthorized b error h]
  refine ⟨rfl, rfl, ?_, ?_⟩
  · simp only [localStorage.getItem]
    rw [Storage.get_remove_ne (by decide), Storage.get_remove_self]
  · simp only [localStorage.getItem]
    rw [Storage.get_remove_self]

/-- C2, at concrete inputs: a 401 on a browser that holds a session, a 404 and
a network failure. -/
theorem response_rejected_escalates_exactly_on_401_witness :
    (api.interceptors.response.rejected Fixture.sessionBrowser
        (Fixture.httpError 401 .null)).1 =
      { storage := [("theme", "dark")]
        effects := [Effect.removeItem "token", Effect.removeItem "user",
          Effect.navigate "/login"] } ∧
    (api.interceptors.response.rejected Fixture.sessionBrowser
        (Fixture.httpError 404 .null)).1 = Fixture.sessionBrowser ∧
    (api.interceptors.response.rejected Fixture.sessionBrowser
        Fixture.networkError).1 = Fixture.sessionBrowser := by
  refine ⟨?_, ?_, ?_⟩
  · have h := (response_rejected_escalates_exactly_on_401 Fixture.sessionBrowser
      (Fixture.httpError 401 .null)).1 rfl
    exact Browser.ext h.1 h.2.1
  · exact (response_rejected_escalates_exactly_on_401 Fixture.sessionBrowser
      (Fixture.httpError 404 .null)).2
      (by simp [Fixture.httpError, JSVal.getOpt, JSVal.lookup]; decide)
  · exact (response_rejected_escalates_exactly_on_401 Fixture.sessionBrowser
      Fixture.networkError).2 (by simp [Fixture.networkError, JSVal.getOpt, JSVal.lookup])

/-- C3, as stated, fails: after a login that stored the token `abc` and a 401
on a later request, the store's token is still `abc`, and the request
interceptor adds no `Authorization` header to the next request. -/
theorem request_interceptor_ignores_store_token :
    ((System.run { auth := { token := .null, user := .null }, browser := Fixture.coldBrowser }
        [Call.login (.str "alice") (.str "secret")
          (Fixture.answering (Fixture.loginPayload "abc" "alice"))]).onResponseError
        (Fixture.httpError 401 .null)).auth.token = .str "abc" ∧
      getHeader "Authorization"
        (api.interceptors.request
          ((System.run { auth := { token := .null, user := .null }, browser := Fixture.coldBrowser }
            [Call.login (.str "alice") (.str "secret")
              (Fixture.answering (Fixture.loginPayload "abc" "alice"))]).onResponseError
            (Fixture.httpError 401 .null)).browser
          Fixture.projectsRequest).headers = none := by
  constructor
  · rfl
  · rfl

/-- C3, amended: the request interceptor decides from the persistent store's
`token` entry. When the entry is a non-empty string `t`, the enriched request
is the request with the header `Authorization` set to `Bearer t`; when the
entry is absent or empty, the request is returned as it came. -/
theorem request_interceptor_attaches_persistent_token (b : Browser) (config : RequestConfig) :
    (∀ t, Storage.get "token" b.storage = some t → t ≠ "" →
      api.interceptors.request b config =
          { config with headers := setHeader "Authorization" ("Bearer " ++ t) config.headers } ∧
        getHeader "Authorization" (api.interceptors.request b config).headers =
          some ("Bearer " ++ t)) ∧
    (Storage.get "token" b.storage = none ∨ Storage.get "token" b.storage = some "" →
      api.interceptors.request b config = config) := by
  constructor
  · intro t ht hne
    have h1 : api.interceptors.request b config =
        { config with headers := setHeader "Authorization" ("Bearer " ++ t) config.headers } := by
      simp [api.interceptors.request, localStorage.getItem, ht, JSVal.truthy, hne, JSVal.toStr]
    rw [h1]
    exact ⟨rfl, Storage.get_set_self _ _ _⟩
  · intro h
    rcases h with h | h
    · simp [api.interceptors.request, localStorage.getItem, h, JSVal.truthy]
    · simp [api.interceptors.request, localStorage.getItem, h, JSVal.truthy]

/-- C3 amended, at concrete inputs: the stored token `tok1` gives
`Bearer tok1`, an empty store gives the request back. -/
theorem request_interceptor_attaches_persistent_token_witness :
    getHeader "Authorization"
        (api.interceptors.request Fixture.sessionBrowser Fixture.projectsRequest).headers =
        some "Bearer tok1" ∧
      api.interceptors.request Fixture.coldBrowser Fixture.projectsRequest =
        Fixture.projectsRequest :=
  ⟨((request_interceptor_attaches_persistent_token Fixture.sessionBrowser
      Fixture.projectsRequest).1 "tok1" rfl (by decide)).2,
    (request_interceptor_attaches_persistent_token Fixture.coldBrowser
      Fixture.projectsRequest).2 (Or.inl rfl)⟩

/-- C4. A failed login call, whatever the error the transport rejected with and
whatever the session before it, leaves the store's token and user as they were
and resolves with a result whose `success` is `false`. -/
theorem login_failure_keeps_session (s : AuthState) (b : Browser) (username password : JSVal)
    (transport : Transport) (error : JSVal)
    (h : transport (loginRequest b username password) = .rejected error) :
    (useAuthStore.login s b username password transport).1 = s ∧
      ∃ message, (useAuthStore.login s b username password transport).2.2 =
        .fulfilled (.obj [("success", .bool false), ("error", message)]) := by
  cases hn : error.isNullish
  · rw [useAuthStore.login_of_rejected h hn, useAuthStore.loginCatch_of_not_nullish hn]
    exact ⟨rfl, _, rfl⟩
  · rw [useAuthStore.login_of_rejected_nullish h hn]
    exact ⟨rfl, _, rfl⟩

/-- C4, at a concrete input: a logged-in store and a login answered 500. -/
theorem login_failure_keeps_session_witness :
    (useAuthStore.login Fixture.sessionState Fixture.sessionBrowser (.str "alice") (.str "wrong")
        (Fixture.failing (Fixture.httpError 500 .null))).1 = Fixture.sessionState ∧
      ∃ message, (useAuthStore.login Fixture.sessionState Fixture.sessionBrowser (.str "alice")
          (.str "wrong") (Fixture.failing (Fixture.httpError 500 .null))).2.2 =
        .fulfilled (.obj [("success", .bool false), ("error", message)]) :=
  login_failure_keeps_session Fixture.sessionState Fixture.sessionBrowser (.str "alice")
    (.str "wrong") (Fixture.failing (Fixture.httpError 500 .null)) (Fixture.httpError 500 .null) rfl

/-- C5. Write-through: after a login answered with a payload that holds the
strings `accessToken = t` and `username = u`, the persistent store's `token`
entry is `t`, which is the token the store reports; the persistent `user`
entry is a JSON text that parses to the record with `username = u`, which is
the store's user; and `login` resolves with the success result. -/
theorem login_success_writes_through (s : AuthState) (b : Browser) (username password : JSVal)
    (transport : Transport) (response : JSVal) (props : List (String × JSVal)) (t u : String)
    (h : transport (loginRequest b username password) = .fulfilled response)
    (hd : response.getOpt "data" = .obj props)
    (ht : JSVal.lookup "accessToken" props = .str t)
    (hu : JSVal.lookup "username" props = .str u) :
    localStorage.getItem (useAuthStore.login s b username password transport).2.1 "token" =
        .str t ∧
      (useAuthStore.login s b username password transport).1.token = .str t ∧
      (∃ text,
        localStorage.getItem (useAuthStore.login s b username password transport).2.1 "user" =
          .str text ∧
        JSON.parse text = .ok (.obj [("username", .str u)])) ∧
      (useAuthStore.login s b username password transport).1.user =
        .obj [("username", .str u)] ∧
      (useAuthStore.login s b username password transport).1.user.getOpt "username" = .str u ∧
      (useAuthStore.login s b username password transport).2.2 =
        .fulfilled (.obj [("success", .bool true)]) := by
  have hdn : (response.getOpt "data").isNullish = false := by rw [hd]; rfl
  have h1 : (response.getOpt "data").getOpt "accessToken" = .str t := by rw [hd]; exact ht
  have h2 : (response.getOpt "data").getOpt "username" = .str u := by rw [hd]; exact hu
  rw [useAuthStore.login_of_fulfilled_data h hdn, h1, h2]
  obtain ⟨text, hs, hp⟩ := JSON.parse_stringify_member "username" u
  refine ⟨?_, rfl, ⟨text, ?_, hp⟩, rfl, ?_, rfl⟩
  · simp only [localStorage.getItem, localStorage.setItem]
    rw [Storage.get_set_ne (by decide), Storage.get_set_self]
    rfl
  · simp only [localStorage.getItem, localStorage.setItem, hs]
    rw [Storage.get_set_self]
    rfl
  · simp [JSVal.getOpt, JSVal.lookup]

/-- C5, at the concrete input of the spec's scenario: the collaborator returns
`tok1` for `alice`. -/
theorem login_success_writes_through_witness :
    localStorage.getItem
        (useAuthStore.login { token := .null, user := .null } Fixture.coldBrowser (.str "alice")
          (.str "secret") (Fixture.answering (Fixture.loginPayload "tok1" "alice"))).2.1
        "token" = .str "tok1" ∧
      (useAuthStore.login { token := .null, user := .null } Fixture.coldBrowser (.str "alice")
          (.str "secret") (Fixture.answering (Fixture.loginPayload "tok1" "alice"))).1.token =
        .str "tok1" ∧
      localStorage.getItem
        (useAuthStore.login { token := .null, user := .null } Fixture.coldBrowser (.str "alice")
          (.str "secret") (Fixture.answering (Fixture.loginPayload "tok1" "alice"))).2.1
        "user" = .str "\x7b\"username\":\"alice\"\x7d" :=
  ⟨(login_success_writes_through { token := .null, user := .null } Fixture.coldBrowser
      (.str "alice") (.str "secret") (Fixture.answering (Fixture.loginPayload "tok1" "alice"))
      _ _ "tok1" "alice" rfl rfl rfl rfl).1,
    (login_success_writes_through { token := .null, user := .null } Fixture.coldBrowser
      (.str "alice") (.str "secret") (Fixture.answering (Fixture.loginPayload "tok1" "alice"))
      _ _ "tok1" "alice" rfl rfl rfl rfl).2.1,
    rfl⟩

/-- C6, as stated, fails: after the spec's scenario (cold start, a login that
returns `tok1`, then a 401) the store still holds the token and
`isAuthenticated` is still true, while `logout()` from the same state gives
`token = null`. -/
theorem unauthorized_keeps_store_state :
    useAuthStore.isAuthenticated
        ((System.run { auth := { token := .null, user := .null }, browser := Fixture.coldBrowser }
          [Call.login (.str "alice") (.str "secret")
            (Fixture.answering (Fixture.loginPayload "tok1" "alice"))]).onResponseError
          (Fixture.httpError 401 .null)).auth = true ∧
      useAuthStore.isAuthenticated
        ((System.run { auth := { token := .null, user := .null }, browser := Fixture.coldBrowser }
          [Call.login (.str "alice") (.str "secret")
            (Fixture.answering (Fixture.loginPayload "tok1" "alice")), Call.logout]).auth) =
        false := by
  constructor
  · rfl
  · rfl

/-- C6, amended: when the response interceptor handles a 401, the persistent
store it leaves is the one `logout()` leaves from the same state (`token` and
`user` removed); the store's own token and user are not touched by the
handler; a store created from the persistent store after the 401, as on the
page load the navigation starts, has the state `logout()` gives, so that
`isAuthenticated` is false there. -/
theorem unauthorized_matches_logout_on_persistent_store (sys : System) (error : JSVal)
    (h : (error.getOpt "response").getOpt "status" = .num 401) :
    (sys.onResponseError error).browser.storage =
        (useAuthStore.logout sys.auth sys.browser).2.storage ∧
      (sys.onResponseError error).auth = sys.auth ∧
      useAuthStore.state (sys.onResponseError error).browser =
        .ok (useAuthStore.logout sys.auth sys.browser).1 ∧
      useAuthStore.isAuthenticated (useAuthStore.logout sys.auth sys.browser).1 = false := by
  have hb := api.interceptors.response.rejected_browser_of_unauthorized sys.browser error h
  refine ⟨?_, rfl, ?_, rfl⟩
  · simp only [System.onResponseError, hb]
    rfl
  · have h1 : Storage.get "token"
        (Storage.remove "user" (Storage.remove "token" sys.browser.storage)) = none := by
      rw [Storage.get_remove_ne (by decide), Storage.get_remove_self]
    have h2 : Storage.get "user"
        (Storage.remove "user" (Storage.remove "token" sys.browser.storage)) = none :=
      Storage.get_remove_self _ _
    simp only [System.onResponseError, hb, useAuthStore.state, localStorage.getItem, h1, h2]
    rfl

/-- C6 amended, at a concrete input: a 401 on a browser that holds a session. -/
theorem unauthorized_matches_logout_on_persistent_store_witness :
    (({ auth := Fixture.sessionState, browser := Fixture.sessionBrowser } :
        System).onResponseError (Fixture.httpError 401 .null)).browser.storage =
        [("theme", "dark")] ∧
      useAuthStore.state
        (({ auth := Fixture.sessionState, browser := Fixture.sessionBrowser } :
          System).onResponseError (Fixture.httpError 401 .null)).browser =
        .ok { token := .null, user := .null } :=
  ⟨(unauthorized_matches_logout_on_persistent_store
      { auth := Fixture.sessionState, browser := Fixture.sessionBrowser }
      (Fixture.httpError 401 .null) rfl).1,
    (unauthorized_matches_logout_on_persistent_store
      { auth := Fixture.sessionState, browser := Fixture.sessionBrowser }
      (Fixture.httpError 401 .null) rfl).2.2.1⟩

/-- C7. The response interceptor passes outcomes through: the success handler
returns the response it was given, and the failure handler rejects with the
error it was given (an error object, or any value other than `null` and
`undefined`), on a 401 as on any other failure. -/
theorem response_interceptor_forwards_outcome (b : Browser) (response error : JSVal)
    (h : error.isNullish = false) :
    api.interceptors.response.fulfilled response = response ∧
      (api.interceptors.response.rejected b error).2 = .rejected error :=
  ⟨rfl, api.interceptors.response.rejected_outcome b error h⟩

/-- C7, at concrete inputs: a 401 is forwarded after the clear and redirect. -/
theorem response_interceptor_forwards_outcome_witness :
    api.interceptors.response.fulfilled (Fixture.loginPayload "tok1" "alice") =
        Fixture.loginPayload "tok1" "alice" ∧
      (api.interceptors.response.rejected Fixture.sessionBrowser
        (Fixture.httpError 401 .null)).2 = .rejected (Fixture.httpError 401 .null) :=
  response_interceptor_forwards_outcome Fixture.sessionBrowser
    (Fixture.loginPayload "tok1" "alice") (Fixture.httpError 401 .null) rfl

/-- C8, as stated, fails: a login rejection whose response body carries the
message field `""`, a string, gives the error `Login failed`, not `""`. -/
theorem login_empty_message_falls_back :
    (((Fixture.httpError 401 (.obj [("message", .str "")])).getOpt "response").getOpt
        "data").getOpt "message" = .str "" ∧
      (useAuthStore.login { token := .null, user := .null } Fixture.coldBrowser (.str "alice")
        (.str "wrong") (Fixture.failing (Fixture.httpError 401 (.obj [("message", .str "")])))).2.2 =
        .fulfilled (.obj [("success", .bool false), ("error", .str "Login failed")]) ∧
      (useAuthStore.login { token := .null, user := .null } Fixture.coldBrowser (.str "alice")
        (.str "wrong") (Fixture.failing (Fixture.httpError 401 (.obj [("message", .str "")])))).2.2 ≠
        .fulfilled (.obj [("success", .bool false), ("error", .str "")]) := by
  refine ⟨rfl, rfl, ?_⟩
  intro h
  have h2 : (.fulfilled (.obj [("success", .bool false), ("error", .str "Login failed")]) :
      Outcome) = .fulfilled (.obj [("success", .bool false), ("error", .str "")]) := h
  simp at h2

/-- C8, amended: for a login rejection whose response body carries a non-empty
string `m` in its `message` field, `login` resolves with the failure result
whose error is `m`; when the error has no response, the response no body, the
body no `message` field, or the message is empty, the error is
`Login failed`. -/
theorem login_failure_message_precedence (s : AuthState) (b : Browser)
    (username password : JSVal) (transport : Transport) (error : JSVal)
    (h : transport (loginRequest b username password) = .rejected error) :
    (∀ m, m ≠ "" →
      ((error.getOpt "response").getOpt "data").getOpt "message" = .str m →
      (useAuthStore.login s b username password transport).2.2 =
        .fulfilled (.obj [("success", .bool false), ("error", .str m)])) ∧
    ((error.getOpt "response").isNullish = true ∨
        ((error.getOpt "response").getOpt "data").isNullish = true ∨
        ((error.getOpt "response").getOpt "data").getOpt "message" = .undefined ∨
        ((error.getOpt "response").getOpt "data").getOpt "message" = .str "" →
      (useAuthStore.login s b username password transport).2.2 =
        .fulfilled (.obj [("success", .bool false), ("error", .str "Login failed")])) := by
  cases hn : error.isNullish
  · rw [useAuthStore.login_of_rejected h hn, useAuthStore.loginCatch_of_not_nullish hn]
    constructor
    · intro m hm hmsg
      simp [hmsg, JSVal.or, JSVal.truthy, hm]
    · intro hcase
      have hmsg : (((error.getOpt "response").getOpt "data").getOpt "message").truthy = false := by
        rcases hcase with h1 | h1 | h1 | h1
        · rw [JSVal.getOpt_of_isNullish h1]
          rfl
        · rw [JSVal.getOpt_of_isNullish h1]
          rfl
        · rw [h1]
          rfl
        · rw [h1]
          rfl
      simp [JSVal.or, hmsg]
  · rw [useAuthStore.login_of_rejected_nullish h hn]
    constructor
    · intro m _ hmsg
      rw [JSVal.getOpt_of_isNullish hn "response"] at hmsg
      simp [JSVal.getOpt] at hmsg
    · intro _
      rfl

/-- C8 amended, at concrete inputs: the body message `bad password` is
returned as it is, and a network failure gives `Login failed`. -/
theorem login_failure_message_precedence_witness :
    (useAuthStore.login { token := .null, user := .null } Fixture.coldBrowser (.str "alice")
        (.str "wrong")
        (Fixture.failing (Fixture.httpError 401 (.obj [("message", .str "bad password")])))).2.2 =
        .fulfilled (.obj [("success", .bool false), ("error", .str "bad password")]) ∧
      (useAuthStore.login { token := .null, user := .null } Fixture.coldBrowser (.str "alice")
        (.str "wrong") (Fixture.failing Fixture.networkError)).2.2 =
        .fulfilled (.obj [("success", .bool false), ("error", .str "Login failed")]) :=
  ⟨(login_failure_message_precedence { token := .null, user := .null } Fixture.coldBrowser
      (.str "alice") (.str "wrong")
      (Fixture.failing (Fixture.httpError 401 (.obj [("message", .str "bad password")])))
      (Fixture.httpError 401 (.obj [("message", .str "bad password")])) rfl).1
      "bad password" (by decide) rfl,
    (login_failure_message_precedence { token := .null, user := .null } Fixture.coldBrowser
      (.str "alice") (.str "wrong") (Fixture.failing Fixture.networkError)
      Fixture.networkError rfl).2 (Or.inl rfl)⟩

/-- C9. `login` never raises: whatever the transport does with the request
(answers with any value, with or without a `data` object, or rejects with any
value), the promise `login` returns is fulfilled, with the success result or
with a failure result that carries a message. -/
theorem login_always_returns_result (s : AuthState) (b : Browser) (username password : JSVal)
    (transport : Transport) :
    ∃ result, (useAuthStore.login s b username password transport).2.2 = .fulfilled result ∧
      (result = .obj [("success", .bool true)] ∨
        ∃ message, result = .obj [("success", .bool false), ("error", message)]) := by
  cases h : transport (loginRequest b username password) with
  | rejected error =>
    cases hn : error.isNullish
    · rw [useAuthStore.login_of_rejected h hn, useAuthStore.loginCatch_of_not_nullish hn]
      exact ⟨_, rfl, Or.inr ⟨_, rfl⟩⟩
    · rw [useAuthStore.login_of_rejected_nullish h hn]
      exact ⟨_, rfl, Or.inr ⟨_, rfl⟩⟩
  | fulfilled response =>
    cases hd : (response.getOpt "data").isNullish
    · rw [useAuthStore.login_of_fulfilled_data h hd]
      exact ⟨_, rfl, Or.inl rfl⟩
    · rw [useAuthStore.login_of_fulfilled_no_data h (Or.inr hd)]
      exact ⟨_, rfl, Or.inr ⟨_, rfl⟩⟩

/-- C10. `logout` is total and idempotent: from every state it gives
`token = null`, `user = null` and a persistent store without `token` and
`user`; a second `logout` gives the same store state and the same persistent
store; on a state that is already logged out it changes neither. -/
theorem logout_clears_and_is_idempotent (s : AuthState) (b : Browser) :
    (useAuthStore.logout s b).1 = { token := .null, user := .null } ∧
      localStorage.getItem (useAuthStore.logout s b).2 "token" = .null ∧
      localStorage.getItem (useAuthStore.logout s b).2 "user" = .null ∧
      (useAuthStore.logout (useAuthStore.logout s b).1 (useAuthStore.logout s b).2).1 =
        (useAuthStore.logout s b).1 ∧
      (useAuthStore.logout (useAuthStore.logout s b).1 (useAuthStore.logout s b).2).2.storage =
        (useAuthStore.logout s b).2.storage ∧
      (s.token = .null → s.user = .null →
        localStorage.getItem b "token" = .null → localStorage.getItem b "user" = .null →
        (useAuthStore.logout s b).1 = s ∧ (useAuthStore.logout s b).2.storage = b.storage) := by
  refine ⟨rfl, ?_, ?_, rfl, ?_, ?_⟩
  · simp only [useAuthStore.logout, localStorage.getItem, localStorage.removeItem]
    rw [Storage.get_remove_ne (by decide), Storage.get_remove_self]
  · simp only [useAuthStore.logout, localStorage.getItem, localStorage.removeItem]
    rw [Storage.get_remove_self]
  · simp only [useAuthStore.logout, localStorage.removeItem]
    have h1 : Storage.get "token" (Storage.remove "user" (Storage.remove "token" b.storage)) =
        none := by
      rw [Storage.get_remove_ne (by decide), Storage.get_remove_self]
    rw [Storage.remove_of_get_none h1, Storage.remove_remove_self]
  · intro ht hu hbt hbu
    have h1 : Storage.get "token" b.storage = none := by
      cases hg : Storage.get "token" b.storage with
      | none => rfl
      | some v => simp [localStorage.getItem, hg] at hbt
    have h2 : Storage.get "user" b.storage = none := by
      cases hg : Storage.get "user" b.storage with
      | none => rfl
      | some v => simp [localStorage.getItem, hg] at hbu
    refine ⟨?_, ?_⟩
    · apply AuthState.ext
      · exact ht.symm
      · exact hu.symm
    · simp only [useAuthStore.logout, localStorage.removeItem]
      rw [Storage.remove_of_get_none h1, Storage.remove_of_get_none h2]

/-- C10, at concrete inputs: a logout from a session keeps the entry of the
other feature, and a logout on the cold state changes nothing. -/
theorem logout_clears_and_is_idempotent_witness :
    (useAuthStore.logout Fixture.sessionState Fixture.sessionBrowser).2.storage =
        [("theme", "dark")] ∧
      (useAuthStore.logout { token := .null, user := .null } Fixture.coldBrowser).1 =
        { token := .null, user := .null } ∧
      (useAuthStore.logout { token := .null, user := .null } Fixture.coldBrowser).2.storage =
        Fixture.coldBrowser.storage :=
  ⟨rfl,
    (logout_clears_and_is_idempotent { token := .null, user := .null }
      Fixture.coldBrowser).2.2.2.2.2 rfl rfl rfl rfl⟩

/-- C11, as stated, fails: a login answered with a 401 runs the forced-logout
path. On the login page with an empty persistent store the navigation to
`/login` is fired; with a session in the persistent store its `token` and
`user` entries are removed. -/
theorem login_unauthorized_runs_forced_logout :
    (useAuthStore.login { token := .null, user := .null } Fixture.coldBrowser (.str "alice")
        (.str "wrong") (Fixture.failing (Fixture.httpError 401 .null))).2.1.effects =
        [Effect.removeItem "token", Effect.removeItem "user", Effect.navigate "/login"] ∧
      Storage.get "token" Fixture.sessionBrowser.storage = some "tok1" ∧
      Storage.get "token"
        (useAuthStore.login Fixture.sessionState Fixture.sessionBrowser (.str "alice")
          (.str "wrong") (Fixture.failing (Fixture.httpError 401 .null))).2.1.storage = none ∧
      Storage.get "user"
        (useAuthStore.login Fixture.sessionState Fixture.sessionBrowser (.str "alice")
          (.str "wrong") (Fixture.failing (Fixture.httpError 401 .null))).2.1.storage = none := by
  refine ⟨rfl, rfl, rfl, rfl⟩

/-- C11, amended: session invalidation is not scoped by endpoint. When the
login call itself is answered with a 401, the response interceptor handles it
as it handles any request: the persistent `token` and `user` entries are
removed, once each, and one navigation to `/login` is fired; the store's
token and user stay as they were and `login` resolves with its failure
result. -/
theorem login_unauthorized_escalates_like_any_request (s : AuthState) (b : Browser)
    (username password : JSVal) (transport : Transport) (error : JSVal)
    (h : transport (loginRequest b username password) = .rejected error)
    (h401 : (error.getOpt "response").getOpt "status" = .num 401) :
    (useAuthStore.login s b username password transport).2.1.storage =
        Storage.remove "user" (Storage.remove "token" b.storage) ∧
      (useAuthStore.login s b username password transport).2.1.effects =
        b.effects ++
          [Effect.removeItem "token", Effect.removeItem "user", Effect.navigate "/login"] ∧
      (useAuthStore.login s b username password transport).1 = s ∧
      ∃ message, (useAuthStore.login s b username password transport).2.2 =
        .fulfilled (.obj [("success", .bool false), ("error", message)]) := by
  have hn : error.isNullish = false := by
    cases error <;> simp [JSVal.getOpt] at h401
    rfl
  rw [useAuthStore.login_of_rejected h hn, useAuthStore.loginCatch_of_not_nullish hn,
    api.interceptors.response.rejected_browser_of_unauthorized b error h401]
  exact ⟨rfl, rfl, rfl, _, rfl⟩

/-- C11 amended, at a concrete input: a wrong password on a browser that holds
a session. -/
theorem login_unauthorized_escalates_like_any_request_witness :
    (useAuthStore.login Fixture.sessionState Fixture.sessionBrowser (.str "alice")
        (.str "wrong")
        (Fixture.failing (Fixture.httpError 401 .null))).2.1.storage = [("theme", "dark")] ∧
      (useAuthStore.login Fixture.sessionState Fixture.sessionBrowser (.str "alice")
        (.str "wrong") (Fixture.failing (Fixture.httpError 401 .null))).1 =
        Fixture.sessionState :=
  ⟨(login_unauthorized_escalates_like_any_request Fixture.sessionState Fixture.sessionBrowser
      (.str "alice") (.str "wrong") (Fixture.failing (Fixture.httpError 401 .null))
      (Fixture.httpError 401 .null) rfl rfl).1,
    (login_unauthorized_escalates_like_any_request Fixture.sessionState Fixture.sessionBrowser
      (.str "alice") (.str "wrong") (Fixture.failing (Fixture.httpError 401 .null))
      (Fixture.httpError 401 .null) rfl rfl).2.2.1⟩

/-- C12, as stated, fails: with a `user` entry that is not well-formed JSON,
creating the initial state throws the `SyntaxError` of `JSON.parse`; it does
not give `user = null`. -/
theorem state_throws_on_malformed_user :
    useAuthStore.state { storage := [("token", "tok1"), ("user", "\x7b")], effects := [] } =
      .error JSON.syntaxError := by
  rfl

/-- C12, amended: creating the initial state succeeds for every persistent
store whose `user` entry is absent, empty or a well-formed JSON text (a text
of the JSON grammar). An absent or empty entry gives `user = null`, a JSON
text gives the value `JSON.parse` reads from it, and the text `login` wrote
for a username gives the record with that username; the token is the `token`
entry, or `null` when that is absent or empty. With an empty persistent store
both are `null`. -/
theorem state_total_on_well_formed_user (b : Browser) :
    (Storage.get "user" b.storage = none ∨ Storage.get "user" b.storage = some "" →
      useAuthStore.state b =
        .ok { token := (localStorage.getItem b "token").or .null, user := .null }) ∧
    (∀ text, Storage.get "user" b.storage = some text → JSON.IsText text →
      ∃ v, JSON.parse text = .ok v ∧
        useAuthStore.state b =
          .ok { token := (localStorage.getItem b "token").or .null, user := v }) ∧
    (∀ text u, Storage.get "user" b.storage = some text →
      JSON.stringify (.obj [("username", .str u)]) = .str text →
      useAuthStore.state b =
        .ok { token := (localStorage.getItem b "token").or .null,
              user := .obj [("username", .str u)] }) ∧
    (b.storage = [] → useAuthStore.state b = .ok { token := .null, user := .null }) := by
  refine ⟨useAuthStore.state_of_no_user, ?_, ?_, ?_⟩
  · intro text h ht
    obtain ⟨v, hv⟩ := JSON.parse_of_isText text ht
    exact ⟨v, hv, useAuthStore.state_of_user h hv⟩
  · intro text u h hs
    obtain ⟨text2, hs2, hp⟩ := JSON.parse_stringify_member "username" u
    rw [hs] at hs2
    injection hs2 with hs2
    subst hs2
    exact useAuthStore.state_of_user h hp
  · intro h
    have hu : Storage.get "user" b.storage = none := by rw [h]; rfl
    rw [useAuthStore.state_of_no_user (Or.inl hu)]
    simp [localStorage.getItem, h, Storage.get, JSVal.or, JSVal.truthy]

/-- C12 amended, at concrete inputs: the session `login` wrote, an empty
persistent store, and two `user` entries that are JSON texts with a fraction:
`1.5`, which gives the number 3/2, and a record with a username and a
score. -/
theorem state_total_on_well_formed_user_witness :
    useAuthStore.state Fixture.sessionBrowser = .ok Fixture.sessionState ∧
      useAuthStore.state Fixture.coldBrowser = .ok { token := .null, user := .null } ∧
      (∃ v, JSON.parse "1.5" = .ok v ∧
        useAuthStore.state { storage := [("user", "1.5")], effects := [] } =
          .ok { token := .null, user := v }) ∧
      useAuthStore.state { storage := [("user", "1.5")], effects := [] } =
        .ok { token := .null, user := .num (.finite (mkRat 3 2)) } ∧
      (∃ v, JSON.parse "\x7b\"username\":\"alice\",\"score\":0.5\x7d" = .ok v ∧
        useAuthStore.state
            { storage := [("user", "\x7b\"username\":\"alice\",\"score\":0.5\x7d")],
              effects := [] } =
          .ok { token := .null, user := v }) ∧
      useAuthStore.state
          { storage := [("user", "\x7b\"username\":\"alice\",\"score\":0.5\x7d")],
            effects := [] } =
        .ok { token := .null,
              user := .obj [("username", .str "alice"),
                ("score", .num (.finite (mkRat 1 2)))] } :=
  ⟨(state_total_on_well_formed_user Fixture.sessionBrowser).2.2.1
      "\x7b\"username\":\"alice\"\x7d" "alice" rfl rfl,
    (state_total_on_well_formed_user Fixture.coldBrowser).2.2.2 rfl,
    (state_total_on_well_formed_user { storage := [("user", "1.5")], effects := [] }).2.1
      "1.5" rfl JSON.isText_fraction,
    rfl,
    (state_total_on_well_formed_user
      { storage := [("user", "\x7b\"username\":\"alice\",\"score\":0.5\x7d")],
        effects := [] }).2.1
      "\x7b\"username\":\"alice\",\"score\":0.5\x7d" rfl JSON.isText_record,
    rfl⟩

/-- C13, as stated, fails: from a cold start, after a successful login that
stored `tok1` and a failed login answered with a 401, the store's token is
still `tok1` and its user is still present, while the persistent store has no
`token` and no `user` entry. Likewise, after a login answered with the access
token `""` the persistent store has a `token` entry and the store's token is
not present. -/
theorem failed_login_breaks_coherence :
    useAuthStore.state Fixture.coldBrowser = .ok { token := .null, user := .null } ∧
      (System.run { auth := { token := .null, user := .null }, browser := Fixture.coldBrowser }
        [Call.login (.str "alice") (.str "secret")
            (Fixture.answering (Fixture.loginPayload "tok1" "alice")),
          Call.login (.str "alice") (.str "wrong")
            (Fixture.failing (Fixture.httpError 401 .null))]).auth.token = .str "tok1" ∧
      (System.run { auth := { token := .null, user := .null }, browser := Fixture.coldBrowser }
        [Call.login (.str "alice") (.str "secret")
            (Fixture.answering (Fixture.loginPayload "tok1" "alice")),
          Call.login (.str "alice") (.str "wrong")
            (Fixture.failing (Fixture.httpError 401 .null))]).auth.userPresent = true ∧
      Storage.get "token"
        (System.run { auth := { token := .null, user := .null }, browser := Fixture.coldBrowser }
          [Call.login (.str "alice") (.str "secret")
              (Fixture.answering (Fixture.loginPayload "tok1" "alice")),
            Call.login (.str "alice") (.str "wrong")
              (Fixture.failing (Fixture.httpError 401 .null))]).browser.storage = none ∧
      Storage.get "user"
        (System.run { auth := { token := .null, user := .null }, browser := Fixture.coldBrowser }
          [Call.login (.str "alice") (.str "secret")
              (Fixture.answering (Fixture.loginPayload "tok1" "alice")),
            Call.login (.str "alice") (.str "wrong")
              (Fixture.failing (Fixture.httpError 401 .null))]).browser.storage = none ∧
      Storage.get "token"
        (System.run { auth := { token := .null, user := .null }, browser := Fixture.coldBrowser }
          [Call.login (.str "alice") (.str "secret")
              (Fixture.answering (Fixture.loginPayload "" "alice"))]).browser.storage =
        some "" ∧
      (System.run { auth := { token := .null, user := .null }, browser := Fixture.coldBrowser }
        [Call.login (.str "alice") (.str "secret")
            (Fixture.answering (Fixture.loginPayload "" "alice"))]).auth.tokenPresent = false := by
  refine ⟨rfl, rfl, rfl, rfl, rfl, rfl, rfl⟩

/-- C13, amended: starting from a store created on a persistent store this
core wrote (no session, or the entries of a login with a non-empty token),
after any sequence of logouts, of logins answered with a non-empty
`accessToken` string and a `username` string, and of failed logins that are
not answered with a 401, the persistent `token` entry is present iff the
store's token is present, and then equals it, and the persistent `user`
entry is present iff the store's user is present, and then parses to it. -/
theorem store_coherent_with_persistent_store (b0 : Browser) (s0 : AuthState)
    (calls : List Call) (hw : b0.WrittenByCore) (hinit : useAuthStore.state b0 = .ok s0)
    (hq : System.quietRun { auth := s0, browser := b0 } calls = true) :
    ((Storage.get "token"
          (System.run { auth := s0, browser := b0 } calls).browser.storage).isSome = true ↔
        (System.run { auth := s0, browser := b0 } calls).auth.tokenPresent = true) ∧
      (∀ t, Storage.get "token"
          (System.run { auth := s0, browser := b0 } calls).browser.storage = some t →
        (System.run { auth := s0, browser := b0 } calls).auth.token = .str t) ∧
      ((Storage.get "user"
          (System.run { auth := s0, browser := b0 } calls).browser.storage).isSome = true ↔
        (System.run { auth := s0, browser := b0 } calls).auth.userPresent = true) ∧
      (∀ text, Storage.get "user"
          (System.run { auth := s0, browser := b0 } calls).browser.storage = some text →
        JSON.parse text = .ok (System.run { auth := s0, browser := b0 } calls).auth.user) := by
  have hc := System.run_coherent calls _ (System.coherent_of_state hw hinit) hq
  exact ⟨hc.1.token_agrees.1, hc.1.token_agrees.2, hc.2.user_agrees.1, hc.2.user_agrees.2⟩

/-- C13 amended, at a concrete input: from a cold start, a login answered 500,
a successful login, a logout and another successful login. -/
theorem store_coherent_with_persistent_store_witness :
    ((Storage.get "token"
          (System.run
            { auth := { token := .null, user := .null }, browser := Fixture.coldBrowser }
            Fixture.rotationCalls).browser.storage).isSome = true ↔
        (System.run { auth := { token := .null, user := .null }, browser := Fixture.coldBrowser }
          Fixture.rotationCalls).auth.tokenPresent = true) ∧
      (System.run { auth := { token := .null, user := .null }, browser := Fixture.coldBrowser }
        Fixture.rotationCalls).auth.token = .str "tok2" :=
  ⟨(store_coherent_with_persistent_store Fixture.coldBrowser { token := .null, user := .null }
      Fixture.rotationCalls (Or.inl ⟨rfl, rfl⟩) rfl rfl).1,
    (store_coherent_with_persistent_store Fixture.coldBrowser { token := .null, user := .null }
      Fixture.rotationCalls (Or.inl ⟨rfl, rfl⟩) rfl rfl).2.1 "tok2" rfl⟩

/-- C14. The request interceptor is a pass-through enrichment: for every
browser state and every request it returns a request (it is a total function)
with the same body, method, URL, base URL and params; every header other than
`Authorization` is as it was. -/
theorem request_interceptor_changes_only_authorization (b : Browser) (config : RequestConfig) :
    (api.interceptors.request b config).data = config.data ∧
      (api.interceptors.request b config).method = config.method ∧
      (api.interceptors.request b config).url = config.url ∧
      (api.interceptors.request b config).baseURL = config.baseURL ∧
      (api.interceptors.request b config).params = config.params ∧
      ∀ name, name ≠ "Authorization" →
        getHeader name (api.interceptors.request b config).headers =
          getHeader name config.headers := by
  unfold api.interceptors.request
  simp only []
  split
  · refine ⟨rfl, rfl, rfl, rfl, rfl, fun name hname => ?_⟩
    exact Storage.get_set_ne hname _ _
  · exact ⟨rfl, rfl, rfl, rfl, rfl, fun _ _ => rfl⟩

/-- C14, at concrete inputs: with and without a stored token. -/
theorem request_interceptor_changes_only_authorization_witness :
    getHeader "Content-Type"
        (api.interceptors.request Fixture.sessionBrowser Fixture.projectsRequest).headers =
        some "application/json" ∧
      (api.interceptors.request Fixture.sessionBrowser Fixture.projectsRequest).url =
        "/projects" :=
  ⟨(request_interceptor_changes_only_authorization Fixture.sessionBrowser
      Fixture.projectsRequest).2.2.2.2.2 "Content-Type" (by decide),
    (request_interceptor_changes_only_authorization Fixture.sessionBrowser
      Fixture.projectsRequest).2.2.1⟩

/-- C15. For every store state whose token is a string or absent,
`isAuthenticated` is true iff the token is present, that is iff it is a
string other than `""`. It depends on the token only: it is false at a cold
start on an empty persistent store, true right after a login answered with a
non-empty access token, and false right after `logout`. -/
theorem isAuthenticated_iff_token_present (s : AuthState)
    (h : s.token.isNullish = true ∨ s.token.isStr = true) :
    (useAuthStore.isAuthenticated s = true ↔ s.tokenPresent = true) ∧
      (useAuthStore.isAuthenticated s = true ↔ ∃ t, t ≠ "" ∧ s.token = .str t) ∧
      (∀ s2 : AuthState, s2.token = s.token →
        useAuthStore.isAuthenticated s2 = useAuthStore.isAuthenticated s) ∧
      (∀ effects s0, useAuthStore.state { storage := [], effects := effects } = .ok s0 →
        useAuthStore.isAuthenticated s0 = false) ∧
      (∀ b username password transport response t,
        transport (loginRequest b username password) = .fulfilled response →
        (response.getOpt "data").getOpt "accessToken" = .str t → t ≠ "" →
        useAuthStore.isAuthenticated
          (useAuthStore.login s b username password transport).1 = true) ∧
      (∀ b, useAuthStore.isAuthenticated (useAuthStore.logout s b).1 = false) := by
  refine ⟨?_, ?_, ?_, ?_, ?_, fun _ => rfl⟩
  · rcases h with h | h
    · cases ht : s.token <;> simp [ht, JSVal.isNullish] at h <;>
        simp [useAuthStore.isAuthenticated, AuthState.tokenPresent, ht, JSVal.truthy]
    · cases ht : s.token <;> simp [ht, JSVal.isStr] at h
      simp [useAuthStore.isAuthenticated, AuthState.tokenPresent, ht, JSVal.truthy]
  · rcases h with h | h
    · cases ht : s.token <;> simp [ht, JSVal.isNullish] at h <;>
        simp [useAuthStore.isAuthenticated, ht, JSVal.truthy]
    · cases ht : s.token <;> simp [ht, JSVal.isStr] at h
      simp [useAuthStore.isAuthenticated, ht, JSVal.truthy]
  · intro s2 h2
    simp [useAuthStore.isAuthenticated, h2]
  · intro effects s0 h0
    rw [useAuthStore.state_of_no_user (b := { storage := [], effects := effects })
      (Or.inl rfl)] at h0
    injection h0 with h0
    subst h0
    rfl
  · intro b username password transport response t hr ht hne
    have hd : (response.getOpt "data").isNullish = false :=
      JSVal.not_nullish_of_getOpt_eq_str ht
    rw [useAuthStore.login_of_fulfilled_data hr hd, ht]
    simp [useAuthStore.isAuthenticated, JSVal.truthy, hne]

/-- C15, at the concrete inputs of the spec's scenario: a session with the
token `tok1`, and the login that created it. -/
theorem isAuthenticated_iff_token_present_witness :
    (useAuthStore.isAuthenticated Fixture.sessionState = true ↔
        Fixture.sessionState.tokenPresent = true) ∧
      useAuthStore.isAuthenticated
        (useAuthStore.login Fixture.sessionState Fixture.coldBrowser (.str "alice")
          (.str "secret") (Fixture.answering (Fixture.loginPayload "tok1" "alice"))).1 = true :=
  ⟨(isAuthenticated_iff_token_present Fixture.sessionState (Or.inr rfl)).1,
    (isAuthenticated_iff_token_present Fixture.sessionState (Or.inr rfl)).2.2.2.2.1
      Fixture.coldBrowser (.str "alice") (.str "secret")
      (Fixture.answering (Fixture.loginPayload "tok1" "alice")) _ "tok1" rfl rfl (by decide)⟩

/-- C16. The credential is read afresh for every request: from every state,
right after `logout()` the request interceptor returns the request as it
came, without adding an `Authorization` header, and after a following login
answered with the non-empty access token `t2` it sets `Authorization` to
`Bearer t2` on the next request. -/
theorem token_rotation_is_picked_up (s : AuthState) (b : Browser) (username password : JSVal)
    (transport : Transport) (response : JSVal) (t2 : String) (config : RequestConfig)
    (h : transport (loginRequest (useAuthStore.logout s b).2 username password) =
      .fulfilled response)
    (ht : (response.getOpt "data").getOpt "accessToken" = .str t2) (hne : t2 ≠ "") :
    api.interceptors.request (useAuthStore.logout s b).2 config = config ∧
      getHeader "Authorization"
        (api.interceptors.request
          (useAuthStore.login (useAuthStore.logout s b).1 (useAuthStore.logout s b).2
            username password transport).2.1 config).headers = some ("Bearer " ++ t2) := by
  have hd : (response.getOpt "data").isNullish = false :=
    JSVal.not_nullish_of_getOpt_eq_str ht
  constructor
  · have hg : Storage.get "token" (useAuthStore.logout s b).2.storage = none := by
      show Storage.get "token" (Storage.remove "user" (Storage.remove "token" b.storage)) = none
      rw [Storage.get_remove_ne (by decide), Storage.get_remove_self]
    simp [api.interceptors.request, localStorage.getItem, hg, JSVal.truthy]
  · rw [useAuthStore.login_of_fulfilled_data h hd, ht]
    have hg : ∀ (b1 : Browser) (v : JSVal),
        Storage.get "token"
          (localStorage.setItem (localStorage.setItem b1 "token" (.str t2)) "user" v).storage =
          some t2 := by
      intro b1 v
      show Storage.get "token" (Storage.set "user" _ (Storage.set "token" t2 b1.storage)) = _
      rw [Storage.get_set_ne (by decide), Storage.get_set_self]
    simp only [api.interceptors.request, localStorage.getItem, hg, JSVal.truthy]
    simp only [bne_iff_ne, ne_eq, hne, not_false_eq_true, if_true, JSVal.toStr]
    exact Storage.get_set_self _ _ _

/-- C16, at a concrete input: the session `tok1` is logged out and `tok2` is
logged in. -/
theorem token_rotation_is_picked_up_witness :
    api.interceptors.request
        (useAuthStore.logout Fixture.sessionState Fixture.sessionBrowser).2
        Fixture.projectsRequest = Fixture.projectsRequest ∧
      getHeader "Authorization"
        (api.interceptors.request
          (useAuthStore.login
            (useAuthStore.logout Fixture.sessionState Fixture.sessionBrowser).1
            (useAuthStore.logout Fixture.sessionState Fixture.sessionBrowser).2
            (.str "alice") (.str "secret")
            (Fixture.answering (Fixture.loginPayload "tok2" "alice"))).2.1
          Fixture.projectsRequest).headers = some "Bearer tok2" :=
  token_rotation_is_picked_up Fixture.sessionState Fixture.sessionBrowser (.str "alice")
    (.str "secret") (Fixture.answering (Fixture.loginPayload "tok2" "alice")) _ "tok2"
    Fixture.projectsRequest rfl rfl (by decide)

/-- C17. The request interceptor's output depends on the request and on the
persistent `token` entry alone: for two systems whose `token` entries are
equal, whatever their stores hold in memory and whatever else their
persistent stores hold, the enriched requests are equal. When the entry is a
non-empty string `t` the header `Authorization` of the enriched request reads
`Bearer t`, and only then is a header set: otherwise the request, its headers
included, is returned as it came. -/
theorem request_interceptor_depends_on_persistent_token (sys1 sys2 : System)
    (config : RequestConfig)
    (h : Storage.get "token" sys1.browser.storage = Storage.get "token" sys2.browser.storage) :
    api.interceptors.request sys1.browser config =
        api.interceptors.request sys2.browser config ∧
      (∀ t, Storage.get "token" sys1.browser.storage = some t → t ≠ "" →
        getHeader "Authorization" (api.interceptors.request sys1.browser config).headers =
            some ("Bearer " ++ t) ∧
          getHeader "Authorization" (api.interceptors.request sys2.browser config).headers =
            some ("Bearer " ++ t) ∧
          (api.interceptors.request sys1.browser config).headers =
            setHeader "Authorization" ("Bearer " ++ t) config.headers ∧
          ∀ name, name ≠ "Authorization" →
            getHeader name (api.interceptors.request sys1.browser config).headers =
              getHeader name config.headers) ∧
      ((¬ ∃ t, t ≠ "" ∧ Storage.get "token" sys1.browser.storage = some t) →
        api.interceptors.request sys1.browser config = config ∧
          getHeader "Authorization" (api.interceptors.request sys1.browser config).headers =
            getHeader "Authorization" config.headers) := by
  have heq : api.interceptors.request sys1.browser config =
      api.interceptors.request sys2.browser config := by
    simp only [api.interceptors.request, localStorage.getItem, h]
  refine ⟨heq, ?_, ?_⟩
  · intro t ht hne
    have h1 : (api.interceptors.request sys1.browser config).headers =
        setHeader "Authorization" ("Bearer " ++ t) config.headers := by
      simp [api.interceptors.request, localStorage.getItem, ht, JSVal.truthy, hne, JSVal.toStr]
    have h2 : getHeader "Authorization" (api.interceptors.request sys1.browser config).headers =
        some ("Bearer " ++ t) := by
      rw [h1]
      exact Storage.get_set_self _ _ _
    refine ⟨h2, ?_, h1, ?_⟩
    · rw [← heq]
      exact h2
    · intro name hname
      rw [h1]
      exact Storage.get_set_ne hname _ _
  · intro hno
    have h1 : api.interceptors.request sys1.browser config = config := by
      cases hg : Storage.get "token" sys1.browser.storage with
      | none => simp [api.interceptors.request, localStorage.getItem, hg, JSVal.truthy]
      | some t =>
        have ht : t = "" := by
          by_contra hne
          exact hno ⟨t, hne, hg⟩
        subst ht
        simp [api.interceptors.request, localStorage.getItem, hg, JSVal.truthy]
    exact ⟨h1, by rw [h1]⟩

/-- C17, at a concrete input: a logged-in system and a system whose store is
empty in memory and whose persistent store holds the same token only. Both
send `Authorization: Bearer tok1`. -/
theorem request_interceptor_depends_on_persistent_token_witness :
    api.interceptors.request Fixture.sessionBrowser Fixture.projectsRequest =
        api.interceptors.request { storage := [("token", "tok1")], effects := [] }
          Fixture.projectsRequest ∧
      getHeader "Authorization"
        (api.interceptors.request Fixture.sessionBrowser Fixture.projectsRequest).headers =
        some "Bearer tok1" ∧
      getHeader "Authorization"
        (api.interceptors.request { storage := [("token", "tok1")], effects := [] }
          Fixture.projectsRequest).headers = some "Bearer tok1" :=
  ⟨(request_interceptor_depends_on_persistent_token
      { auth := Fixture.sessionState, browser := Fixture.sessionBrowser }
      { auth := { token := .null, user := .null },
        browser := { storage := [("token", "tok1")], effects := [] } }
      Fixture.projectsRequest rfl).1,
    ((request_interceptor_depends_on_persistent_token
      { auth := Fixture.sessionState, browser := Fixture.sessionBrowser }
      { auth := { token := .null, user := .null },
        browser := { storage := [("token", "tok1")], effects := [] } }
      Fixture.projectsRequest rfl).2.1 "tok1" rfl (by decide)).1,
    ((request_interceptor_depends_on_persistent_token
      { auth := Fixture.sessionState, browser := Fixture.sessionBrowser }
      { auth := { token := .null, user := .null },
        browser := { storage := [("token", "tok1")], effects := [] } }
      Fixture.projectsRequest rfl).2.1 "tok1" rfl (by decide)).2.1⟩

/-- C18. Session teardown and login touch only the two session keys: for every
persistent store and every key other than `token` and `user`, the entry under
that key is the same after `logout()`, after the response interceptor's
failure handler (on a 401 as on any other error) and after `login` (successful
or not); a successful login calls `localStorage.setItem` for `token` and for
`user` and changes the world in no other way. -/
theorem session_calls_touch_only_session_keys (s : AuthState) (b : Browser) (key : String)
    (h1 : key ≠ "token") (h2 : key ≠ "user") :
    Storage.get key (useAuthStore.logout s b).2.storage = Storage.get key b.storage ∧
      (∀ error, Storage.get key (api.interceptors.response.rejected b error).1.storage =
        Storage.get key b.storage) ∧
      (∀ username password transport,
        Storage.get key (useAuthStore.login s b username password transport).2.1.storage =
          Storage.get key b.storage) ∧
      (∀ username password transport response,
        transport (loginRequest b username password) = .fulfilled response →
        (response.getOpt "data").isNullish = false →
        (useAuthStore.login s b username password transport).2.1.effects =
          b.effects ++
            [Effect.setItem "token" ((response.getOpt "data").getOpt "accessToken").toStr,
              Effect.setItem "user"
                (JSON.stringify
                  (.obj [("username", (response.getOpt "data").getOpt "username")])).toStr]) := by
  refine ⟨?_, fun error => api.interceptors.response.rejected_storage_frame b error h1 h2,
    ?_, ?_⟩
  · show Storage.get key (Storage.remove "user" (Storage.remove "token" b.storage)) = _
    rw [Storage.get_remove_ne h2, Storage.get_remove_ne h1]
  · intro username password transport
    cases h : transport (loginRequest b username password) with
    | rejected error =>
      cases hn : error.isNullish
      · rw [useAuthStore.login_of_rejected h hn]
        exact api.interceptors.response.rejected_storage_frame b error h1 h2
      · rw [useAuthStore.login_of_rejected_nullish h hn]
    | fulfilled response =>
      cases hd : (response.getOpt "data").isNullish
      · rw [useAuthStore.login_of_fulfilled_data h hd]
        show Storage.get key (Storage.set "user" _ (Storage.set "token" _ b.storage)) = _
        rw [Storage.get_set_ne h2, Storage.get_set_ne h1]
      · rw [useAuthStore.login_of_fulfilled_no_data h (Or.inr hd)]
  · intro username password transport response h hd
    rw [useAuthStore.login_of_fulfilled_data h hd]
    simp [localStorage.setItem]

/-- C18, at a concrete input: the entry `theme` survives a logout, a 401 and a
login. -/
theorem session_calls_touch_only_session_keys_witness :
    Storage.get "theme"
        (useAuthStore.logout Fixture.sessionState Fixture.sessionBrowser).2.storage =
        some "dark" ∧
      Storage.get "theme"
        (api.interceptors.response.rejected Fixture.sessionBrowser
          (Fixture.httpError 401 .null)).1.storage = some "dark" ∧
      Storage.get "theme"
        (useAuthStore.login Fixture.sessionState Fixture.sessionBrowser (.str "bob")
          (.str "secret") (Fixture.answering (Fixture.loginPayload "tok2" "bob"))).2.1.storage =
        some "dark" :=
  ⟨(session_calls_touch_only_session_keys Fixture.sessionState Fixture.sessionBrowser "theme"
      (by decide) (by decide)).1,
    (session_calls_touch_only_session_keys Fixture.sessionState Fixture.sessionBrowser "theme"
      (by decide) (by decide)).2.1 (Fixture.httpError 401 .null),
    (session_calls_touch_only_session_keys Fixture.sessionState Fixture.sessionBrowser "theme"
      (by decide) (by decide)).2.2.1 (.str "bob") (.str "secret")
      (Fixture.answering (Fixture.loginPayload "tok2" "bob"))⟩
